import Mathlib

/-!
# ScreenCapture: pixel conversion, GPU readback and capture session

A shallow embedding of `src/ScreenCapture/ScreenCapture.cpp`.

* C++ `int` values are mathematical integers; every `int` operation that can
  leave the 32-bit range is passed through `wrapInt` (two's complement).
* Memory is a region of bytes of known extent, addressed by an integer offset
  relative to its base pointer; an access outside the region has no defined
  result.
* Calls into Direct3D, the compositor and the JPEG writer are recorded as
  events of a trace; their results are parameters of the model.
-/

namespace ScreenCapture

/-! ## Machine integers and memory -/

/-- Value held by a C++ `int` after computing the mathematical integer `x`
(32-bit two's complement). -/
def wrapInt (x : Int) : Int := (x + 2147483648) % 4294967296 - 2147483648

/-- One `unsigned char`. -/
abbrev byte : Type := Fin 256

/-- One assignment `d[k] = s[m]` of the conversion loop: the byte offset read,
relative to `src`, and the byte offset written, relative to `dst`. -/
structure Access where
  read : Int
  write : Int
deriving DecidableEq

/-- A readable memory region behind a `const void *`: its extent in bytes and
the byte at each offset below the extent. -/
structure Mem where
  size : Nat
  byteOf : Nat → byte

/-- The region holding exactly the bytes of a list. -/
def Mem.ofList (l : List byte) : Mem := ⟨l.length, fun n => l.getD n 0⟩

/-- Read of `src[off]`; `none` when the offset is outside the region. -/
def load (src : Mem) (off : Int) : Option byte :=
  if 0 ≤ off ∧ off.toNat < src.size then some (src.byteOf off.toNat) else none

/-- Byte at an offset of a buffer held as a list; `none` outside of it. -/
def byteAt (buf : List byte) (off : Int) : Option byte :=
  if 0 ≤ off then buf[off.toNat]? else none

/-- Write of `dst[off] = v`; `none` when the offset is outside the buffer. -/
def store (buf : List byte) (off : Int) (v : byte) : Option (List byte) :=
  if 0 ≤ off ∧ off.toNat < buf.length then some (buf.set off.toNat v) else none

/-- Carries out a sequence of assignments in program order. -/
def exec (src : Mem) : List Access → List byte → Option (List byte)
  | [], buf => some buf
  | a :: rest, buf =>
    match load src a.read with
    | none => none
    | some v =>
      match store buf a.write v with
      | none => none
      | some buf1 => exec src rest buf1

/-! ## SaveAsJPG (ScreenCapture.cpp, lines 183-218) -/

/-- Body of the inner loop, with `s` and `d` given as offsets:
`d[0] = s[2]; d[1] = s[1]; d[2] = s[0]; d[3] = s[3];`. -/
def pixelBody (s d : Int) : List Access :=
  [⟨s + 2, d + 0⟩, ⟨s + 1, d + 1⟩, ⟨s + 0, d + 2⟩, ⟨s + 3, d + 3⟩]

/-- Inner loop `for (int j = 0; j < w; ++j) { ...; s += 4; d += 4; }` with
`n` iterations left. -/
def columnLoop : Nat → Int → Int → List Access
  | 0, _, _ => []
  | n + 1, s, d => pixelBody s d ++ columnLoop n (s + 4) (d + 4)

/-- Outer loop `for (int i = 0; i < h; ++i)` with `n` iterations left, at row
counter `i`. `rowStart i` is the `int` added to `src` to form `s`; `d` is
`dst + (dst_stride * i)`. -/
def rowLoop (w dst_stride : Int) (rowStart : Int → Int) : Nat → Int → List Access
  | 0, _ => []
  | n + 1, i =>
    columnLoop w.toNat (rowStart i) (wrapInt (dst_stride * i))
      ++ rowLoop w dst_stride rowStart n (i + 1)

/-- Assignments performed by `SaveAsJPG`, in program order. -/
def SaveAsJPG_accesses (w h src_stride : Int) (flip_y : Bool) : List Access :=
  let dst_stride := wrapInt (w * 4)
  if flip_y then
    rowLoop w dst_stride
      (fun i => wrapInt (src_stride * wrapInt (wrapInt (h - i) - 1))) h.toNat 0
  else
    rowLoop w dst_stride (fun i => wrapInt (src_stride * i)) h.toNat 0

/-- Arguments of the call `stbi_write_jpg(path, w, h, 4, buf.data(), dst_stride)`. -/
structure EncoderCall where
  filename : String
  x : Int
  y : Int
  comp : Int
  data : List byte
  dst_stride : Int
deriving DecidableEq

/-- Number of bytes of `std::vector<byte> buf(w * h * 4)`: the `int` value of
`w * h * 4`. -/
def bufSize (w h : Int) : Int := wrapInt (wrapInt (w * h) * 4)

/-- Model of `SaveAsJPG`: the call made to the encoder. `none` when the function does
not get there: the vector size is negative (the allocation throws) or an
access leaves `data` or `buf`. -/
def SaveAsJPG (path : String) (w h src_stride : Int) (data : Mem) (flip_y : Bool) :
    Option EncoderCall :=
  if bufSize w h < 0 then none
  else
    match exec data (SaveAsJPG_accesses w h src_stride flip_y)
        (List.replicate (bufSize w h).toNat 0) with
    | none => none
    | some buf => some ⟨path, w, h, 4, buf, wrapInt (w * 4)⟩

/-- Default value of the parameter `flip_y` (`bool flip_y = 0`). -/
def SaveAsJPG_default_flip_y : Bool := false

/-- Source row read for output row `i`. -/
def srcRow (h : Int) (flip_y : Bool) (i : Int) : Int := if flip_y then h - 1 - i else i

/-- The `int` added to `src` at row counter `i`, as `SaveAsJPG` computes it. -/
def rowStartOf (h src_stride : Int) (flip_y : Bool) (i : Int) : Int :=
  if flip_y then wrapInt (src_stride * wrapInt (wrapInt (h - i) - 1))
  else wrapInt (src_stride * i)

/-- Byte of a source pixel that lands in byte `k` of the output pixel. -/
def swz (k : Nat) : Nat :=
  match k with
  | 0 => 2
  | 1 => 1
  | 2 => 0
  | _ => 3

/-- Source row read for output row `i`, over the naturals. -/
def srcRowN (H : Nat) (flip_y : Bool) (i : Nat) : Nat := if flip_y then H - 1 - i else i

/-- Byte expected at offset `p` of the packed output. -/
def expectedByte (data : Mem) (W H S : Nat) (flip_y : Bool) (p : Nat) : byte :=
  data.byteOf (S * srcRowN H flip_y (p / (4 * W)) + (p % (4 * W) / 4 * 4 + swz (p % (4 * W) % 4)))

/-- Four consecutive bytes at an offset. -/
def pixel (rd : Int → Option byte) (off : Int) : Option (byte × byte × byte × byte) :=
  match rd off, rd (off + 1), rd (off + 2), rd (off + 3) with
  | some a, some b, some c, some d => some (a, b, c, d)
  | _, _, _, _ => none

/-- Exchange of the first and third byte of a pixel. -/
def swapBR (p : byte × byte × byte × byte) : byte × byte × byte × byte :=
  (p.2.2.1, p.2.1, p.1, p.2.2.2)

/-- File name passed by `main`. -/
def cap_jpg : String := "cap.jpg"

/-- A region of `n` zero bytes. -/
def zeros (n : Nat) : Mem := ⟨n, fun _ => 0⟩

/-! ## ReadTexture (ScreenCapture.cpp, lines 135-181) -/

/-- A Windows `HRESULT`. -/
abbrev HRESULT : Type := Int

/-- The value `S_OK`. -/
def S_OK : HRESULT := 0

/-- The value `S_FALSE`. -/
def S_FALSE : HRESULT := 1

/-- The value `E_FAIL`, 0x80004005 as a signed 32-bit integer. -/
def E_FAIL : HRESULT := -2147467259

/-- The value `E_INVALIDARG`, 0x80070057 as a signed 32-bit integer. -/
def E_INVALIDARG : HRESULT := -2147024809

/-- The value `E_OUTOFMEMORY`, 0x8007000E as a signed 32-bit integer. -/
def E_OUTOFMEMORY : HRESULT := -2147024882

/-- The test `SUCCEEDED(hr)`, that is `hr >= 0`. -/
def SUCCEEDED (hr : HRESULT) : Bool := decide (0 ≤ hr)

/-- What `Map` stores into `D3D11_MAPPED_SUBRESOURCE`: the mapped memory behind
`pData` and the `UINT` row pitch. -/
structure D3D11_MAPPED_SUBRESOURCE where
  pData : Mem
  RowPitch : Nat

/-- Results of the Direct3D calls made during one `ReadTexture`. `GetData n` is
the result of the call of `ctx->GetData` made after `n` earlier calls. -/
structure Gpu where
  CreateQuery : HRESULT
  CreateTexture2D : HRESULT
  GetData : Nat → HRESULT
  Map : HRESULT
  mapped : D3D11_MAPPED_SUBRESOURCE

/-- Observable steps of the readback, the conversion callback and the
orchestrator callback. -/
inductive Event where
  | CreateQuery (hr : HRESULT)
  | CreateTexture2D (width height : Int) (hr : HRESULT)
  | CopySubresourceRegion (tex : Nat) (right bottom : Int)
  | End
  | Flush
  | GetData (hr : HRESULT)
  | Map (hr : HRESULT)
  | callback (pData : Mem) (stride : Int)
  | Unmap
  | stbi_write_jpg (call : EncoderCall)
  | notify_one

/-- How a call ends: it returns a value, it is still in the poll loop when the
fuel runs out, or it is left by an exception or an undefined access. -/
inductive Outcome (α : Type) where
  | returned (a : α)
  | unfinished
  | aborted
deriving DecidableEq

/-- A call's trace of events and its outcome. -/
structure Run (α : Type) where
  trace : List Event
  result : Outcome α

/-- Loop `while (ctx->GetData(...) == S_FALSE) { ++wait_count; }` with `fuel`
evaluations of the condition allowed; `n` calls of `GetData` were made before.
Gives the `GetData` events and whether the loop was left. -/
def pollLoop (gpu : Gpu) : Nat → Nat → List Event × Bool
  | 0, _ => ([], false)
  | fuel + 1, n =>
    if gpu.GetData n = S_FALSE then
      (Event.GetData S_FALSE :: (pollLoop gpu fuel (n + 1)).1, (pollLoop gpu fuel (n + 1)).2)
    else ([Event.GetData (gpu.GetData n)], true)

/-- Steps of `ReadTexture` before the poll loop: query creation, staging
texture creation, the copy of `[0,width) x [0,height)`, `End` and `Flush`.
No result is tested. -/
def ReadTexture_setup (gpu : Gpu) (tex : Nat) (width height : Int) : List Event :=
  [Event.CreateQuery gpu.CreateQuery, Event.CreateTexture2D width height gpu.CreateTexture2D,
   Event.CopySubresourceRegion tex width height, Event.End, Event.Flush]

/-- Model of `ReadTexture(tex, width, height, callback)`. The `UINT` row
pitch reaches the callback as an `int`. `staging` is null exactly when
`CreateTexture2D` failed; after a successful `Map` the source calls
`staging->GetDesc(&desc)`, which on the null pointer leaves the function
before the callback. -/
def ReadTexture (gpu : Gpu) (fuel : Nat) (tex : Nat) (width height : Int)
    (callback : Mem → Int → Run Unit) : Run Bool :=
  match pollLoop gpu fuel 0 with
  | (polls, false) => ⟨ReadTexture_setup gpu tex width height ++ polls, Outcome.unfinished⟩
  | (polls, true) =>
    -- if (SUCCEEDED(ctx->Map(staging.get(), 0, D3D11_MAP_READ, 0, &mapped)))
    if SUCCEEDED gpu.Map then
      -- staging->GetDesc(&desc);
      if SUCCEEDED gpu.CreateTexture2D then
        -- callback(mapped.pData, mapped.RowPitch); ctx->Unmap(staging.get(), 0); return true;
        match (callback gpu.mapped.pData (wrapInt gpu.mapped.RowPitch)).result with
        | Outcome.returned _ =>
          ⟨ReadTexture_setup gpu tex width height ++ polls
            ++ [Event.Map gpu.Map,
                Event.callback gpu.mapped.pData (wrapInt gpu.mapped.RowPitch)]
            ++ (callback gpu.mapped.pData (wrapInt gpu.mapped.RowPitch)).trace ++ [Event.Unmap],
           Outcome.returned true⟩
        | Outcome.unfinished =>
          ⟨ReadTexture_setup gpu tex width height ++ polls
            ++ [Event.Map gpu.Map,
                Event.callback gpu.mapped.pData (wrapInt gpu.mapped.RowPitch)]
            ++ (callback gpu.mapped.pData (wrapInt gpu.mapped.RowPitch)).trace,
           Outcome.unfinished⟩
        | Outcome.aborted =>
          ⟨ReadTexture_setup gpu tex width height ++ polls
            ++ [Event.Map gpu.Map,
                Event.callback gpu.mapped.pData (wrapInt gpu.mapped.RowPitch)]
            ++ (callback gpu.mapped.pData (wrapInt gpu.mapped.RowPitch)).trace,
           Outcome.aborted⟩
      else
        ⟨ReadTexture_setup gpu tex width height ++ polls ++ [Event.Map gpu.Map],
         Outcome.aborted⟩
    else
      -- return false;
      ⟨ReadTexture_setup gpu tex width height ++ polls ++ [Event.Map gpu.Map],
       Outcome.returned false⟩

/-! ## ScreenCapture: the frame callback (ScreenCapture.cpp, lines 228-233) -/

/-- Inner lambda `[&](void *data, int stride) { SaveAsJPG(path, w, h, stride, data); }`:
`flip_y` is not passed and takes its default. -/
def ScreenCapture_onPixels (path : String) (w h : Int) (data : Mem) (stride : Int) : Run Unit :=
  match SaveAsJPG path w h stride data SaveAsJPG_default_flip_y with
  | some call => ⟨[Event.stbi_write_jpg call], Outcome.returned ()⟩
  | none => ⟨[], Outcome.aborted⟩

/-- Outer lambda `[&](ID3D11Texture2D *surface, int w, int h) { ReadTexture(...);
cond.notify_one(); }`: the result of `ReadTexture` is discarded. -/
def ScreenCapture_callback (gpu : Gpu) (fuel : Nat) (path : String) (surface : Nat) (w h : Int) :
    Run Unit :=
  match (ReadTexture gpu fuel surface w h (ScreenCapture_onPixels path w h)).result with
  | Outcome.returned _ =>
    ⟨(ReadTexture gpu fuel surface w h (ScreenCapture_onPixels path w h)).trace
      ++ [Event.notify_one], Outcome.returned ()⟩
  | Outcome.unfinished =>
    ⟨(ReadTexture gpu fuel surface w h (ScreenCapture_onPixels path w h)).trace,
     Outcome.unfinished⟩
  | Outcome.aborted =>
    ⟨(ReadTexture gpu fuel surface w h (ScreenCapture_onPixels path w h)).trace,
     Outcome.aborted⟩

/-! ## Reading a trace -/

/-- Encoder calls of a trace, in order. -/
def encoderCalls : List Event → List EncoderCall
  | [] => []
  | Event.stbi_write_jpg c :: t => c :: encoderCalls t
  | _ :: t => encoderCalls t

/-- Results of the `GetData` polls of a trace, in order. -/
def pollResults : List Event → List HRESULT
  | [] => []
  | Event.GetData hr :: t => hr :: pollResults t
  | _ :: t => pollResults t

/-- Row pitches with which the pixel callback was invoked, in order. -/
def callbackStrides : List Event → List Int
  | [] => []
  | Event.callback _ stride :: t => stride :: callbackStrides t
  | _ :: t => callbackStrides t

/-- Whether the event is the `Map` of the staging texture or the invocation of the pixel
callback on the mapped memory. -/
def Event.touchesStaging : Event → Bool
  | Event.Map _ => true
  | Event.callback _ _ => true
  | _ => false

/-- Number of `Unmap` calls of a trace. -/
def unmapCount : List Event → Nat
  | [] => 0
  | Event.Unmap :: t => unmapCount t + 1
  | _ :: t => unmapCount t

/-- Number of `notify_one` calls of a trace. -/
def notifyCount : List Event → Nat
  | [] => 0
  | Event.notify_one :: t => notifyCount t + 1
  | _ :: t => notifyCount t

/-- A device on which every call succeeds at once and the mapped memory is
`data` with row pitch `pitch`. -/
def gpuOk (data : Mem) (pitch : Nat) : Gpu :=
  ⟨S_OK, S_OK, fun _ => S_OK, S_OK, ⟨data, pitch⟩⟩

/-- A device whose query creation fails: the query stays null, each poll of it
reports `E_INVALIDARG`, and the staging texture is created and mapped. -/
def gpuQueryFails : Gpu :=
  ⟨E_FAIL, S_OK, fun _ => E_INVALIDARG, S_OK, ⟨Mem.ofList [10, 20, 30, 40], 4⟩⟩

/-- A device whose staging texture creation fails, so that `staging` stays
null, while the poll completes at once and `Map` reports success. -/
def gpuStagingFails : Gpu :=
  ⟨S_OK, E_FAIL, fun _ => S_OK, S_OK, ⟨Mem.ofList [10, 20, 30, 40], 4⟩⟩

/-- A device whose poll reports `S_FALSE` twice and then `E_OUTOFMEMORY`, and
whose `Map` succeeds. -/
def gpuPollError : Gpu :=
  ⟨S_OK, S_OK, fun n => if n < 2 then S_FALSE else E_OUTOFMEMORY, S_OK,
   ⟨Mem.ofList [10, 20, 30, 40], 4⟩⟩

/-- A device whose copy completes after two pending polls and whose `Map`
fails. -/
def gpuMapFails : Gpu :=
  ⟨S_OK, S_OK, fun n => if n < 2 then S_FALSE else S_OK, E_FAIL, ⟨zeros 0, 0⟩⟩

/-- A pixel callback that does nothing. -/
def idleCallback : Mem → Int → Run Unit := fun _ _ => ⟨[], Outcome.returned ()⟩

/-! ## GraphicsCapture (ScreenCapture.cpp, lines 30-133) -/

/-- What a session is started on: the `HWND` or the `HMONITOR` overload of `start`. -/
inductive Target where
  | window (hwnd : Nat)
  | monitor (hmon : Nat)
deriving DecidableEq

/-- Calls made on compositor objects, with the handles they concern, and
invocations of the stored callback. An assignment of `nullptr` to a member
that is already null, and `revoke` on an empty revoker, make no call. -/
inductive SessionEvent where
  | revoke (token : Nat)
  | releaseSession (session : Nat)
  | Close (pool : Nat)
  | releaseItem (item : Nat)
  | CreateFramePool (free_threaded : Bool) (item pool : Nat)
  | FrameArrived (pool token : Nat)
  | CreateCaptureSession (pool item session : Nat)
  | StartCapture (session : Nat)
  | invoke (callback surface : Nat) (w h : Int)
deriving DecidableEq

/-- The compositor side: the next unused handle and the calls made so far. -/
structure World where
  next : Nat
  log : List SessionEvent
deriving DecidableEq

/-- Members of `GraphicsCapture` that `start` and `stop` change. A member is
`none` when null (or an empty revoker, or an empty `std::function`); callbacks
are identified by a number. The device members are set once by the
constructor and are left out. -/
structure GraphicsCapture where
  m_frame_pool : Option Nat
  m_capture_item : Option Nat
  m_capture_session : Option Nat
  m_frame_arrived : Option Nat
  m_callback : Option Nat
deriving DecidableEq

/-- State after the constructor: every member null. -/
def GraphicsCapture.new : GraphicsCapture := ⟨none, none, none, none, none⟩

/-- Appends the event of releasing a handle, if there is one. -/
def World.release (wd : World) (member : Option Nat) (ev : Nat → SessionEvent) : World :=
  match member with
  | some x => ⟨wd.next, wd.log ++ [ev x]⟩
  | none => wd

/-- Model of `GraphicsCapture::stop`, statement by statement. -/
def GraphicsCapture.stop (g : GraphicsCapture) (wd : World) : GraphicsCapture × World :=
  -- m_frame_arrived.revoke();
  let wd1 := wd.release g.m_frame_arrived SessionEvent.revoke
  let g1 : GraphicsCapture :=
    ⟨g.m_frame_pool, g.m_capture_item, g.m_capture_session, none, g.m_callback⟩
  -- m_capture_session = nullptr;
  let wd2 := wd1.release g1.m_capture_session SessionEvent.releaseSession
  let g2 : GraphicsCapture :=
    ⟨g1.m_frame_pool, g1.m_capture_item, none, g1.m_frame_arrived, g1.m_callback⟩
  -- if (m_frame_pool) { m_frame_pool.Close(); m_frame_pool = nullptr; }
  let wd3 := wd2.release g2.m_frame_pool SessionEvent.Close
  let g3 : GraphicsCapture :=
    ⟨none, g2.m_capture_item, g2.m_capture_session, g2.m_frame_arrived, g2.m_callback⟩
  -- m_capture_item = nullptr;
  let wd4 := wd3.release g3.m_capture_item SessionEvent.releaseItem
  let g4 : GraphicsCapture :=
    ⟨g3.m_frame_pool, none, g3.m_capture_session, g3.m_frame_arrived, g3.m_callback⟩
  -- m_callback = {};
  (⟨g4.m_frame_pool, g4.m_capture_item, g4.m_capture_session, g4.m_frame_arrived, none⟩, wd4)

/-- Model of `GraphicsCapture::startImpl`, statement by statement. `cci` is what
`cci(interop)` stores into `m_capture_item`: the resolved item, or null. The
frame pool, the event token and the capture session get the next three unused
handles. -/
def GraphicsCapture.startImpl (g : GraphicsCapture) (wd : World) (free_threaded : Bool)
    (callback : Nat) (cci : Option Nat) : Bool × GraphicsCapture × World :=
  -- stop();
  let g0 := (g.stop wd).1
  let wd0 := (g.stop wd).2
  -- m_callback = callback;
  let g1 : GraphicsCapture :=
    ⟨g0.m_frame_pool, g0.m_capture_item, g0.m_capture_session, g0.m_frame_arrived, some callback⟩
  -- cci(interop);
  let g2 : GraphicsCapture :=
    ⟨g1.m_frame_pool, cci, g1.m_capture_session, g1.m_frame_arrived, g1.m_callback⟩
  -- if (m_capture_item) { ... return true; } else { return false; }
  match g2.m_capture_item with
  | some item =>
    -- m_frame_pool = Direct3D11CaptureFramePool::Create[FreeThreaded](..., 1, size);
    let g3 : GraphicsCapture :=
      ⟨some wd0.next, g2.m_capture_item, g2.m_capture_session, g2.m_frame_arrived, g2.m_callback⟩
    -- m_frame_arrived = m_frame_pool.FrameArrived(auto_revoke, ...);
    let g4 : GraphicsCapture :=
      ⟨g3.m_frame_pool, g3.m_capture_item, g3.m_capture_session, some (wd0.next + 1),
       g3.m_callback⟩
    -- m_capture_session = m_frame_pool.CreateCaptureSession(m_capture_item);
    let g5 : GraphicsCapture :=
      ⟨g4.m_frame_pool, g4.m_capture_item, some (wd0.next + 2), g4.m_frame_arrived,
       g4.m_callback⟩
    -- m_capture_session.StartCapture();
    (true, g5,
     ⟨wd0.next + 3,
      wd0.log ++ [SessionEvent.CreateFramePool free_threaded item wd0.next,
        SessionEvent.FrameArrived wd0.next (wd0.next + 1),
        SessionEvent.CreateCaptureSession wd0.next item (wd0.next + 2),
        SessionEvent.StartCapture (wd0.next + 2)]⟩)
  | none => (false, g2, wd0)

/-- The two overloads of `GraphicsCapture::start`; `resolve` is the outcome of
`CreateForWindow` or `CreateForMonitor`. -/
def GraphicsCapture.start (resolve : Target → Option Nat) (g : GraphicsCapture) (wd : World)
    (target : Target) (free_threaded : Bool) (callback : Nat) :
    Bool × GraphicsCapture × World :=
  g.startImpl wd free_threaded callback (resolve target)

/-- Model of `GraphicsCapture::onFrameArrived` for a frame with surface `surface` and content
size `(w, h)`: the stored callback is invoked; calling an empty `std::function`
throws. -/
def GraphicsCapture.onFrameArrived (g : GraphicsCapture) (wd : World) (surface : Nat)
    (w h : Int) : Option World :=
  match g.m_callback with
  | some cb => some ⟨wd.next, wd.log ++ [SessionEvent.invoke cb surface w h]⟩
  | none => none

/-- Callback invocations of a log, in order. -/
def invocations : List SessionEvent → List Nat
  | [] => []
  | SessionEvent.invoke cb _ _ _ :: t => cb :: invocations t
  | _ :: t => invocations t

/-- A compositor that resolves no target. -/
def resolveNone : Target → Option Nat := fun _ => none

/-- A compositor that resolves every monitor to item 100 and no window. -/
def resolveMonitor : Target → Option Nat
  | Target.monitor _ => some 100
  | Target.window _ => none

/-- A session in the Active state: pool 0, item 100, capture session 2, event
token 1, callback 7. -/
def activeSession : GraphicsCapture := ⟨some 0, some 100, some 2, some 1, some 7⟩

/-- The compositor after the start that produced `activeSession`. -/
def activeWorld : World :=
  ⟨3, [SessionEvent.CreateFramePool true 100 0, SessionEvent.FrameArrived 0 1,
       SessionEvent.CreateCaptureSession 0 100 2, SessionEvent.StartCapture 2]⟩

/-! ## Facts about the conversion loop -/

theorem wrapInt_eq {x : Int} (h1 : -2147483648 ≤ x) (h2 : x < 2147483648) : wrapInt x = x := by
  unfold wrapInt; omega

theorem mem_columnLoop (a : Access) : ∀ (n : Nat) (s d : Int),
    a ∈ columnLoop n s d ↔ ∃ j : Nat, j < n ∧ a ∈ pixelBody (s + 4 * j) (d + 4 * j)
  | 0, s, d => by simp [columnLoop]
  | n + 1, s, d => by
    rw [columnLoop, List.mem_append, mem_columnLoop a n]
    constructor
    · rintro (h | ⟨j, hj, h⟩)
      · exact ⟨0, by omega, by simpa using h⟩
      · refine ⟨j + 1, by omega, ?_⟩
        have e1 : s + 4 * ((j + 1 : Nat) : Int) = s + 4 + 4 * j := by push_cast; ring
        have e2 : d + 4 * ((j + 1 : Nat) : Int) = d + 4 + 4 * j := by push_cast; ring
        rw [e1, e2]; exact h
    · rintro ⟨j, hj, h⟩
      cases j with
      | zero => left; simpa using h
      | succ j =>
        right
        refine ⟨j, by omega, ?_⟩
        have e1 : s + 4 * ((j + 1 : Nat) : Int) = s + 4 + 4 * j := by push_cast; ring
        have e2 : d + 4 * ((j + 1 : Nat) : Int) = d + 4 + 4 * j := by push_cast; ring
        rw [e1, e2] at h; exact h

theorem mem_rowLoop (a : Access) (w dst_stride : Int) (rowStart : Int → Int) :
    ∀ (n : Nat) (i : Int),
    a ∈ rowLoop w dst_stride rowStart n i ↔
      ∃ t : Nat, t < n ∧
        a ∈ columnLoop w.toNat (rowStart (i + t)) (wrapInt (dst_stride * (i + t)))
  | 0, i => by simp [rowLoop]
  | n + 1, i => by
    rw [rowLoop, List.mem_append, mem_rowLoop a w dst_stride rowStart n]
    constructor
    · rintro (h | ⟨t, ht, h⟩)
      · exact ⟨0, by omega, by simpa using h⟩
      · refine ⟨t + 1, by omega, ?_⟩
        have e : i + ((t + 1 : Nat) : Int) = i + 1 + t := by push_cast; ring
        rw [e]; exact h
    · rintro ⟨t, ht, h⟩
      cases t with
      | zero => left; simpa using h
      | succ t =>
        right
        refine ⟨t, by omega, ?_⟩
        have e : i + ((t + 1 : Nat) : Int) = i + 1 + t := by push_cast; ring
        rw [e] at h; exact h

/-- Every assignment of `SaveAsJPG` belongs to one pixel `(i, j)`; no range
assumption is made. -/
theorem mem_SaveAsJPG_accesses (a : Access) (w h src_stride : Int) (flip_y : Bool) :
    a ∈ SaveAsJPG_accesses w h src_stride flip_y ↔
      ∃ i j : Nat, i < h.toNat ∧ j < w.toNat ∧
        a ∈ pixelBody (rowStartOf h src_stride flip_y i + 4 * j)
              (wrapInt (wrapInt (w * 4) * i) + 4 * j) := by
  unfold SaveAsJPG_accesses rowStartOf
  cases flip_y <;> simp only [Bool.false_eq_true, if_false, if_true, mem_rowLoop, mem_columnLoop,
    zero_add] <;>
  · constructor
    · rintro ⟨t, ht, j, hj, h⟩; exact ⟨t, j, ht, hj, h⟩
    · rintro ⟨t, j, ht, hj, h⟩; exact ⟨t, ht, j, hj, h⟩

theorem bufSize_eq (w h : Int) (hw : 0 ≤ w) (hh : 0 ≤ h) (hwh : w * h * 4 < 2147483648) :
    bufSize w h = w * h * 4 := by
  have h0 : 0 ≤ w * h := mul_nonneg hw hh
  unfold bufSize
  rw [wrapInt_eq (x := w * h) (by omega) (by omega)]
  exact wrapInt_eq (by omega) (by omega)

theorem srcRow_range (h : Int) (flip_y : Bool) (i : Int) (h0 : 0 ≤ i) (hi : i < h) :
    0 ≤ srcRow h flip_y i ∧ srcRow h flip_y i < h := by
  unfold srcRow; cases flip_y <;> simp <;> omega

/-- Without `int` overflow the offsets are the mathematical ones. -/
theorem offsets_in_range (w h s : Int) (flip_y : Bool) (hw : 0 ≤ w) (hs : 4 * w ≤ s)
    (hs31 : s < 2147483648) (hwh : w * h * 4 < 2147483648) (hsh : s * (h - 1) < 2147483648)
    (i j : Int) (h0 : 0 ≤ i) (hi : i < h) (hj0 : 0 ≤ j) (hj : j < w) :
    rowStartOf h s flip_y i = s * srcRow h flip_y i ∧
      wrapInt (wrapInt (w * 4) * i) = w * 4 * i := by
  have hs0 : 0 ≤ s := by omega
  have hw1 : 1 ≤ w := by omega
  have hh1 : 1 ≤ h := by omega
  have hwi : w * i ≤ w * (h - 1) := mul_le_mul_of_nonneg_left (by omega) hw
  have hwi0 : 0 ≤ w * i := mul_nonneg hw h0
  have hh31 : h ≤ w * h := by nlinarith
  have e4 : wrapInt (w * 4) = w * 4 := wrapInt_eq (by omega) (by omega)
  constructor
  · unfold rowStartOf srcRow
    cases flip_y
    · simp only [Bool.false_eq_true, if_false]
      have hsi : s * i ≤ s * (h - 1) := mul_le_mul_of_nonneg_left (by omega) hs0
      have hsi0 : 0 ≤ s * i := mul_nonneg hs0 h0
      exact wrapInt_eq (by omega) (by omega)
    · simp only [if_true]
      have hsub : w * h = w * (h - 1) + w := by ring
      rw [wrapInt_eq (x := h - i) (by omega) (by omega),
        wrapInt_eq (x := h - i - 1) (by omega) (by omega)]
      have hsi : s * (h - i - 1) ≤ s * (h - 1) := mul_le_mul_of_nonneg_left (by omega) hs0
      have hsi0 : 0 ≤ s * (h - i - 1) := mul_nonneg hs0 (by omega)
      rw [wrapInt_eq (by omega) (by omega)]
      congr 1; ring
  · rw [e4]
    have e : w * 4 * i = 4 * (w * i) := by ring
    have e2 : w * h * 4 = 4 * (w * (h - 1)) + 4 * w := by ring
    rw [e]
    exact wrapInt_eq (by omega) (by omega)

theorem load_eq_some (m : Mem) (n : Nat) (hn : n < m.size) :
    load m (n : Int) = some (m.byteOf n) := by
  simp [load, hn]

theorem store_eq_some (buf : List byte) (off : Int) (v : byte) (h0 : 0 ≤ off)
    (h1 : off.toNat < buf.length) : store buf off v = some (buf.set off.toNat v) := by
  simp [store, h0, h1]

/-- When every assignment stays inside both buffers and writes at offset `p` the
value `g p`, the run succeeds, keeps the length, and every offset that is
written (or already held `g p`) holds `g p` afterwards. -/
theorem exec_spec (src : Mem) (g : Nat → byte) :
    ∀ (acc : List Access) (buf : List byte),
      (∀ a ∈ acc, 0 ≤ a.write ∧ a.write.toNat < buf.length ∧
        load src a.read = some (g a.write.toNat)) →
      ∃ out, exec src acc buf = some out ∧ out.length = buf.length ∧
        ∀ p, p < buf.length →
          ((∃ a ∈ acc, a.write.toNat = p) ∨ buf[p]? = some (g p)) → out[p]? = some (g p)
  | [], buf, _ => by
    refine ⟨buf, rfl, rfl, ?_⟩
    intro p _ hp
    rcases hp with ⟨a, ha, _⟩ | hp
    · cases ha
    · exact hp
  | a :: rest, buf, hall => by
    obtain ⟨ha0, ha1, hal⟩ := hall a (List.mem_cons_self _ _)
    have hrest : ∀ b ∈ rest, 0 ≤ b.write ∧
        b.write.toNat < (buf.set a.write.toNat (g a.write.toNat)).length ∧
        load src b.read = some (g b.write.toNat) := by
      intro b hb
      have := hall b (List.mem_cons_of_mem _ hb)
      simpa using this
    obtain ⟨out, hout, hlen, hval⟩ := exec_spec src g rest _ hrest
    refine ⟨out, ?_, by simpa using hlen, ?_⟩
    · simp only [exec, hal, store_eq_some buf a.write _ ha0 ha1]
      exact hout
    · intro p hp hcase
      apply hval p (by simpa using hp)
      by_cases hpa : a.write.toNat = p
      · right
        subst hpa
        simp [List.getElem?_set_self, ha1]
      · rcases hcase with ⟨b, hb, hbp⟩ | hold
        · rcases List.mem_cons.mp hb with rfl | hb
          · exact absurd hbp hpa
          · exact Or.inl ⟨b, hb, hbp⟩
        · right
          rw [List.getElem?_set_ne hpa]; exact hold

theorem srcRowN_cast (H : Nat) (flip_y : Bool) (i : Nat) (hi : i < H) :
    ((srcRowN H flip_y i : Nat) : Int) = srcRow H flip_y i := by
  unfold srcRowN srcRow
  cases flip_y <;> simp
  omega

theorem srcRowN_lt (H : Nat) (flip_y : Bool) (i : Nat) (hi : i < H) :
    srcRowN H flip_y i < H := by
  unfold srcRowN
  cases flip_y <;> simp <;> omega

theorem pixel_divmod (W i j k : Nat) (hj : j < W) (hk : k < 4) :
    (4 * (W * i) + 4 * j + k) / (4 * W) = i ∧ (4 * (W * i) + 4 * j + k) % (4 * W) = 4 * j + k := by
  have hp : 4 * (W * i) + 4 * j + k = 4 * W * i + (4 * j + k) := by ring
  have hlt : 4 * j + k < 4 * W := by omega
  rw [hp]
  constructor
  · rw [Nat.mul_add_div (by omega), Nat.div_eq_of_lt hlt]; rfl
  · rw [Nat.mul_add_mod, Nat.mod_eq_of_lt hlt]

/-- One assignment of pixel `(i, j)`: it stays inside both buffers and writes
the expected byte. -/
theorem access_ok (data : Mem) (W H S : Nat) (flip_y : Bool)
    (hlen : S * H ≤ data.size) (hS : 4 * W ≤ S)
    (i j k : Nat) (hi : i < H) (hj : j < W) (hk : k < 4) :
    0 ≤ (W : Int) * 4 * i + 4 * j + k ∧
    ((W : Int) * 4 * i + 4 * j + k).toNat < W * H * 4 ∧
    load data ((S : Int) * srcRow H flip_y i + 4 * j + (swz k : Nat)) =
      some (expectedByte data W H S flip_y ((W : Int) * 4 * i + 4 * j + k).toNat) := by
  have ew : (W : Int) * 4 * i + 4 * j + k = ((4 * (W * i) + 4 * j + k : Nat) : Int) := by
    push_cast; ring
  have hWi : W * i + W ≤ W * H := by
    calc W * i + W = W * (i + 1) := by ring
      _ ≤ W * H := Nat.mul_le_mul_left W hi
  have hr := srcRowN_lt H flip_y i hi
  have hSr : S * srcRowN H flip_y i + S ≤ S * H := by
    calc S * srcRowN H flip_y i + S = S * (srcRowN H flip_y i + 1) := by ring
      _ ≤ S * H := Nat.mul_le_mul_left S hr
  have hm : swz k < 4 := by
    unfold swz; split <;> omega
  have hq : (4 * j + k) / 4 * 4 + swz ((4 * j + k) % 4) = 4 * j + swz k := by
    have e1 : (4 * j + k) / 4 = j := by omega
    have e2 : (4 * j + k) % 4 = k := by omega
    rw [e1, e2]; ring
  obtain ⟨hd, hmod⟩ := pixel_divmod W i j k hj hk
  rw [ew, Int.toNat_natCast]
  refine ⟨Int.natCast_nonneg _, by omega, ?_⟩
  have er : (S : Int) * srcRow H flip_y i + 4 * j + (swz k : Nat) =
      ((S * srcRowN H flip_y i + (4 * j + swz k) : Nat) : Int) := by
    rw [← srcRowN_cast H flip_y i hi]; push_cast; ring
  rw [er, load_eq_some _ _ (by omega)]
  unfold expectedByte
  rw [hd, hmod, hq]

theorem mem_pixelBody_swz (s d : Int) (k : Nat) (hk : k < 4) :
    (⟨s + (swz k : Nat), d + k⟩ : Access) ∈ pixelBody s d := by
  interval_cases k <;> simp [pixelBody, swz]

theorem mem_pixelBody_iff (a : Access) (s d : Int) :
    a ∈ pixelBody s d ↔ ∃ k : Nat, k < 4 ∧ a = ⟨s + (swz k : Nat), d + k⟩ := by
  constructor
  · intro h
    simp only [pixelBody, List.mem_cons, List.mem_singleton, List.not_mem_nil, or_false] at h
    rcases h with rfl | rfl | rfl | rfl
    · exact ⟨0, by omega, by simp [swz]⟩
    · exact ⟨1, by omega, by simp [swz]⟩
    · exact ⟨2, by omega, by simp [swz]⟩
    · exact ⟨3, by omega, by simp [swz]⟩
  · rintro ⟨k, hk, rfl⟩
    exact mem_pixelBody_swz s d k hk

/-- Functional correctness of `SaveAsJPG` when no `int` computation overflows:
the encoder is called with a packed buffer of `w * h * 4` bytes in which byte
`k` of pixel `(i, j)` is byte `swz k` of source pixel `(srcRow i, j)`. -/
theorem SaveAsJPG_spec (path : String) (w h s : Int) (data : Mem) (flip_y : Bool)
    (hw : 0 ≤ w) (hh : 0 ≤ h) (hs : 4 * w ≤ s) (hs31 : s < 2147483648)
    (hwh : w * h * 4 < 2147483648) (hsh : s * (h - 1) < 2147483648)
    (hlen : s * h ≤ data.size) :
    ∃ buf, SaveAsJPG path w h s data flip_y = some ⟨path, w, h, 4, buf, w * 4⟩ ∧
      (buf.length : Int) = w * h * 4 ∧
      ∀ i j : Int, 0 ≤ i → i < h → 0 ≤ j → j < w → ∀ k : Nat, k < 4 →
        ∃ v, load data (s * srcRow h flip_y i + 4 * j + (swz k : Nat)) = some v ∧
             byteAt buf (w * 4 * i + 4 * j + k) = some v := by
  have hs0 : 0 ≤ s := by omega
  have hb := bufSize_eq w h hw hh hwh
  have e4 : wrapInt (w * 4) = w * 4 := wrapInt_eq (by omega) (by omega)
  lift w to ℕ using hw with W
  lift h to ℕ using hh with H
  lift s to ℕ using hs0 with S
  have hlenN : S * H ≤ data.size := by exact_mod_cast hlen
  have hSN : 4 * W ≤ S := by exact_mod_cast hs
  have hn : (bufSize (W : Int) (H : Int)).toNat = W * H * 4 := by
    rw [hb]
    have : (W : Int) * H * 4 = ((W * H * 4 : Nat) : Int) := by push_cast; ring
    rw [this, Int.toNat_natCast]
  have hall : ∀ a ∈ SaveAsJPG_accesses (W : Int) (H : Int) (S : Int) flip_y,
      0 ≤ a.write ∧
      a.write.toNat < (List.replicate (bufSize (W : Int) (H : Int)).toNat (0 : byte)).length ∧
      load data a.read =
        some (expectedByte data W H S flip_y a.write.toNat) := by
    intro a ha
    rw [mem_SaveAsJPG_accesses] at ha
    obtain ⟨i, j, hi, hj, hmem⟩ := ha
    rw [Int.toNat_natCast] at hi hj
    obtain ⟨o1, o2⟩ := offsets_in_range (W : Int) (H : Int) (S : Int) flip_y (by omega) hs hs31
      hwh hsh (i : Int) (j : Int) (by omega) (by omega) (by omega) (by omega)
    rw [o1, o2, mem_pixelBody_iff] at hmem
    obtain ⟨k, hk, rfl⟩ := hmem
    have := access_ok data W H S flip_y hlenN hSN i j k hi hj hk
    simp only [List.length_replicate, hn]
    exact this
  obtain ⟨out, hout, hlo, hval⟩ := exec_spec data (expectedByte data W H S flip_y) _ _ hall
  rw [List.length_replicate, hn] at hlo
  refine ⟨out, ?_, ?_, ?_⟩
  · unfold SaveAsJPG
    have hnn : (0 : Int) ≤ (W : Int) * H :=
      mul_nonneg (Int.natCast_nonneg _) (Int.natCast_nonneg _)
    rw [if_neg (by rw [hb]; omega), hout, e4]
  · rw [hlo]; push_cast; ring
  · intro i j hi0 hi hj0 hj k hk
    lift i to ℕ using hi0 with I
    lift j to ℕ using hj0 with J
    have hI : I < H := by exact_mod_cast hi
    have hJ : J < W := by exact_mod_cast hj
    obtain ⟨a0, a1, a2⟩ := access_ok data W H S flip_y hlenN hSN I J k hI hJ hk
    refine ⟨_, a2, ?_⟩
    have hmem : (⟨(S : Int) * srcRow H flip_y I + 4 * J + (swz k : Nat),
        (W : Int) * 4 * I + 4 * J + k⟩ : Access) ∈
        SaveAsJPG_accesses (W : Int) (H : Int) (S : Int) flip_y := by
      rw [mem_SaveAsJPG_accesses]
      refine ⟨I, J, by simpa using hI, by simpa using hJ, ?_⟩
      obtain ⟨o1, o2⟩ := offsets_in_range (W : Int) (H : Int) (S : Int) flip_y (by omega) hs hs31
        hwh hsh (I : Int) (J : Int) (by omega) (by omega) (by omega) (by omega)
      rw [o1, o2]
      exact mem_pixelBody_swz _ _ k hk
    have := hval _ (by rw [List.length_replicate, hn]; exact a1) (Or.inl ⟨_, hmem, rfl⟩)
    unfold byteAt
    rw [if_pos a0]
    exact this

theorem exec_none_of_bad_read (src : Mem) :
    ∀ (acc : List Access) (buf : List byte),
      (∃ a ∈ acc, load src a.read = none) → exec src acc buf = none
  | [], _, h => by
    obtain ⟨a, ha, _⟩ := h
    cases ha
  | a :: rest, buf, h => by
    obtain ⟨b, hb, hbad⟩ := h
    simp only [exec]
    cases hl : load src a.read with
    | none => rfl
    | some v =>
      simp only []
      cases hs : store buf a.write v with
      | none => rfl
      | some buf1 =>
        simp only []
        rcases List.mem_cons.mp hb with rfl | hb
        · rw [hl] at hbad; cases hbad
        · exact exec_none_of_bad_read src rest buf1 ⟨b, hb, hbad⟩

theorem exec_none_of_empty (src : Mem) (acc : List Access) (hne : acc ≠ []) :
    exec src acc [] = none := by
  cases acc with
  | nil => exact absurd rfl hne
  | cons a rest =>
    simp only [exec]
    cases load src a.read with
    | none => rfl
    | some v => simp [store]

/-- Per-pixel form of `SaveAsJPG_spec`. -/
theorem SaveAsJPG_pixels (path : String) (w h s : Int) (data : Mem) (flip_y : Bool)
    (hw : 0 ≤ w) (hh : 0 ≤ h) (hs : 4 * w ≤ s) (hs31 : s < 2147483648)
    (hwh : w * h * 4 < 2147483648) (hsh : s * (h - 1) < 2147483648)
    (hlen : s * h ≤ data.size) :
    ∃ buf, SaveAsJPG path w h s data flip_y = some ⟨path, w, h, 4, buf, w * 4⟩ ∧
      (buf.length : Int) = w * h * 4 ∧
      ∀ i j : Int, 0 ≤ i → i < h → 0 ≤ j → j < w →
        ∃ b g r a : byte,
          load data (s * srcRow h flip_y i + 4 * j + 0) = some b ∧
          load data (s * srcRow h flip_y i + 4 * j + 1) = some g ∧
          load data (s * srcRow h flip_y i + 4 * j + 2) = some r ∧
          load data (s * srcRow h flip_y i + 4 * j + 3) = some a ∧
          byteAt buf (w * 4 * i + 4 * j + 0) = some r ∧
          byteAt buf (w * 4 * i + 4 * j + 1) = some g ∧
          byteAt buf (w * 4 * i + 4 * j + 2) = some b ∧
          byteAt buf (w * 4 * i + 4 * j + 3) = some a := by
  obtain ⟨buf, hcall, hlenb, hpix⟩ := SaveAsJPG_spec path w h s data flip_y hw hh hs hs31 hwh hsh hlen
  refine ⟨buf, hcall, hlenb, ?_⟩
  intro i j hi0 hi hj0 hj
  obtain ⟨r, hr1, hr2⟩ := hpix i j hi0 hi hj0 hj 0 (by omega)
  obtain ⟨g, hg1, hg2⟩ := hpix i j hi0 hi hj0 hj 1 (by omega)
  obtain ⟨b, hb1, hb2⟩ := hpix i j hi0 hi hj0 hj 2 (by omega)
  obtain ⟨a, ha1, ha2⟩ := hpix i j hi0 hi hj0 hj 3 (by omega)
  simp only [swz, Nat.cast_ofNat, Nat.cast_zero, Nat.cast_one] at hr1 hr2 hg1 hg2 hb1 hb2 ha1 ha2
  exact ⟨b, g, r, a, hb1, hg1, hr1, ha1, hr2, hg2, hb2, ha2⟩

/-! ## Claims about the converter -/

/-- C1 (as stated, refuted): with `w = h = 32768`, `src_stride = 131072 = 4 * w`
and a source buffer of `src_stride * h` bytes, the `int` product `w * h * 4`
wraps to `0`, the vector is empty, and the encoder is never handed a buffer of
`w * h * 4` bytes. -/
theorem C1_counterexample_size_overflow :
    ((0 : Int) ≤ 32768 ∧ (4 : Int) * 32768 ≤ 131072 ∧
      (131072 : Int) * 32768 ≤ ((zeros 4294967296).size : Int)) ∧
    bufSize 32768 32768 = 0 ∧
    SaveAsJPG cap_jpg 32768 32768 131072 (zeros 4294967296) false = none := by
  have hb : bufSize 32768 32768 = 0 := by decide
  refine ⟨⟨by decide, by decide, by decide⟩, hb, ?_⟩
  have hne : SaveAsJPG_accesses 32768 32768 131072 false ≠ [] := by
    apply List.ne_nil_of_mem (a := ⟨rowStartOf 32768 131072 false (0 : Nat) + 4 * (0 : Nat) + 2,
      wrapInt (wrapInt (32768 * 4) * (0 : Nat)) + 4 * (0 : Nat) + 0⟩)
    rw [mem_SaveAsJPG_accesses]
    exact ⟨0, 0, by decide, by decide, by simp [pixelBody]⟩
  unfold SaveAsJPG
  rw [hb, if_neg (lt_irrefl 0),
    show List.replicate (0 : Int).toNat (0 : byte) = [] from rfl, exec_none_of_empty _ _ hne]

/-- C1 (amended): when `src_stride` is an `int` and neither `w * h * 4` nor
`src_stride * (h - 1)` overflows `int`, the encoder receives exactly
`w * h * 4` bytes with row stride `w * 4`, and output pixel `(i, j)` is the
source pixel it was read from with bytes 0 and 2 exchanged. -/
theorem C1_channel_swap (path : String) (w h src_stride : Int) (data : Mem)
    (flip_y : Bool) (hw : 0 ≤ w) (hh : 0 ≤ h) (hs : 4 * w ≤ src_stride)
    (hs31 : src_stride < 2147483648) (hwh : w * h * 4 < 2147483648)
    (hsh : src_stride * (h - 1) < 2147483648) (hlen : src_stride * h ≤ data.size) :
    ∃ buf, SaveAsJPG path w h src_stride data flip_y = some ⟨path, w, h, 4, buf, w * 4⟩ ∧
      (buf.length : Int) = w * h * 4 ∧
      ∀ i j : Int, 0 ≤ i → i < h → 0 ≤ j → j < w →
        ∃ b g r a : byte,
          load data (src_stride * srcRow h flip_y i + 4 * j + 0) = some b ∧
          load data (src_stride * srcRow h flip_y i + 4 * j + 1) = some g ∧
          load data (src_stride * srcRow h flip_y i + 4 * j + 2) = some r ∧
          load data (src_stride * srcRow h flip_y i + 4 * j + 3) = some a ∧
          byteAt buf (w * 4 * i + 4 * j + 0) = some r ∧
          byteAt buf (w * 4 * i + 4 * j + 1) = some g ∧
          byteAt buf (w * 4 * i + 4 * j + 2) = some b ∧
          byteAt buf (w * 4 * i + 4 * j + 3) = some a :=
  SaveAsJPG_pixels path w h src_stride data flip_y hw hh hs hs31 hwh hsh hlen

/-- Witness of C1: the source pixel `(B,G,R,A) = (10,20,30,40)` becomes
`(30,20,10,40)`. -/
theorem C1_channel_swap_witness :
    SaveAsJPG cap_jpg 1 1 4 (Mem.ofList [10, 20, 30, 40]) false
        = some ⟨cap_jpg, 1, 1, 4, [30, 20, 10, 40], 4⟩ ∧
    ∃ buf, SaveAsJPG cap_jpg 1 1 4 (Mem.ofList [10, 20, 30, 40]) false
        = some ⟨cap_jpg, 1, 1, 4, buf, 1 * 4⟩ ∧
      (buf.length : Int) = 1 * 1 * 4 ∧
      ∀ i j : Int, 0 ≤ i → i < 1 → 0 ≤ j → j < 1 →
        ∃ b g r a : byte,
          load (Mem.ofList [10, 20, 30, 40]) (4 * srcRow 1 false i + 4 * j + 0) = some b ∧
          load (Mem.ofList [10, 20, 30, 40]) (4 * srcRow 1 false i + 4 * j + 1) = some g ∧
          load (Mem.ofList [10, 20, 30, 40]) (4 * srcRow 1 false i + 4 * j + 2) = some r ∧
          load (Mem.ofList [10, 20, 30, 40]) (4 * srcRow 1 false i + 4 * j + 3) = some a ∧
          byteAt buf (1 * 4 * i + 4 * j + 0) = some r ∧
          byteAt buf (1 * 4 * i + 4 * j + 1) = some g ∧
          byteAt buf (1 * 4 * i + 4 * j + 2) = some b ∧
          byteAt buf (1 * 4 * i + 4 * j + 3) = some a :=
  ⟨by decide,
    C1_channel_swap cap_jpg 1 1 4 (Mem.ofList [10, 20, 30, 40]) false (by decide) (by decide)
      (by decide) (by decide) (by decide) (by decide) (by decide)⟩

/-- Row form of `SaveAsJPG_pixels`: output pixel `(i, j)` is the exchanged
source pixel `(srcRow i, j)`. -/
theorem SaveAsJPG_rows (path : String) (w h s : Int) (data : Mem) (flip_y : Bool)
    (hw : 0 ≤ w) (hh : 0 ≤ h) (hs : 4 * w ≤ s) (hs31 : s < 2147483648)
    (hwh : w * h * 4 < 2147483648) (hsh : s * (h - 1) < 2147483648)
    (hlen : s * h ≤ data.size) :
    ∃ buf, SaveAsJPG path w h s data flip_y = some ⟨path, w, h, 4, buf, w * 4⟩ ∧
      ∀ i j : Int, 0 ≤ i → i < h → 0 ≤ j → j < w →
        ∃ px, pixel (load data) (s * srcRow h flip_y i + 4 * j) = some px ∧
          pixel (byteAt buf) (w * 4 * i + 4 * j) = some (swapBR px) := by
  obtain ⟨buf, hcall, _, hpix⟩ :=
    SaveAsJPG_pixels path w h s data flip_y hw hh hs hs31 hwh hsh hlen
  refine ⟨buf, hcall, ?_⟩
  intro i j hi0 hi hj0 hj
  obtain ⟨b, g, r, a, h0, h1, h2, h3, k0, k1, k2, k3⟩ := hpix i j hi0 hi hj0 hj
  rw [add_zero] at h0 k0
  refine ⟨(b, g, r, a), ?_, ?_⟩
  · simp only [pixel, h0, h1, h2, h3]
  · simp only [pixel, k0, k1, k2, k3, swapBR]

/-- C2 (as stated, refuted): with `w = 1`, `h = 3`, `src_stride = 2^30` and a
source buffer of `src_stride * h` bytes, `flip_y = false`, the `int` product
`src_stride * 2` for row 2 wraps to `-2^31`; the read leaves the buffer and no
output row is produced. -/
theorem C2_counterexample_row_overflow :
    ((4 : Int) * 1 ≤ 1073741824 ∧
      (1073741824 : Int) * 3 ≤ ((zeros 3221225472).size : Int)) ∧
    rowStartOf 3 1073741824 false 2 = -2147483648 ∧
    SaveAsJPG cap_jpg 1 3 1073741824 (zeros 3221225472) false = none := by
  refine ⟨⟨by decide, by decide⟩, by decide, ?_⟩
  have hmem : (⟨rowStartOf 3 1073741824 false (2 : Nat) + 4 * (0 : Nat) + 2,
      wrapInt (wrapInt (1 * 4) * (2 : Nat)) + 4 * (0 : Nat) + 0⟩ : Access) ∈
      SaveAsJPG_accesses 1 3 1073741824 false := by
    rw [mem_SaveAsJPG_accesses]
    exact ⟨2, 0, by decide, by decide, by simp [pixelBody]⟩
  unfold SaveAsJPG
  rw [if_neg (by decide), exec_none_of_bad_read _ _ _ ⟨_, hmem, by decide⟩]

/-- C2 (amended): when the source buffer holds `src_stride * h` bytes,
`src_stride` is an `int` and neither `w * h * 4` nor `src_stride * (h - 1)`
overflows `int`, output row `i` is the converted source row `h - 1 - i` with
`flip_y = true` and the converted source row `i` with `flip_y = false`. -/
theorem C2_row_order (path : String) (w h src_stride : Int) (data : Mem)
    (hw : 0 ≤ w) (hh : 0 ≤ h) (hs : 4 * w ≤ src_stride)
    (hs31 : src_stride < 2147483648) (hwh : w * h * 4 < 2147483648)
    (hsh : src_stride * (h - 1) < 2147483648) (hlen : src_stride * h ≤ data.size) :
    (∃ buf, SaveAsJPG path w h src_stride data true = some ⟨path, w, h, 4, buf, w * 4⟩ ∧
      ∀ i j : Int, 0 ≤ i → i < h → 0 ≤ j → j < w →
        ∃ px, pixel (load data) (src_stride * (h - 1 - i) + 4 * j) = some px ∧
          pixel (byteAt buf) (w * 4 * i + 4 * j) = some (swapBR px)) ∧
    (∃ buf, SaveAsJPG path w h src_stride data false = some ⟨path, w, h, 4, buf, w * 4⟩ ∧
      ∀ i j : Int, 0 ≤ i → i < h → 0 ≤ j → j < w →
        ∃ px, pixel (load data) (src_stride * i + 4 * j) = some px ∧
          pixel (byteAt buf) (w * 4 * i + 4 * j) = some (swapBR px)) :=
  ⟨by simpa [srcRow] using SaveAsJPG_rows path w h src_stride data true hw hh hs hs31 hwh hsh hlen,
   by simpa [srcRow] using SaveAsJPG_rows path w h src_stride data false hw hh hs hs31 hwh hsh hlen⟩

/-- Witness of C2: the 1x2 image with row 0 filled with 1 and row 1 filled
with 2. -/
theorem C2_row_order_witness :
    (SaveAsJPG cap_jpg 1 2 4 (Mem.ofList [1, 1, 1, 1, 2, 2, 2, 2]) true
        = some ⟨cap_jpg, 1, 2, 4, [2, 2, 2, 2, 1, 1, 1, 1], 4⟩ ∧
     SaveAsJPG cap_jpg 1 2 4 (Mem.ofList [1, 1, 1, 1, 2, 2, 2, 2]) false
        = some ⟨cap_jpg, 1, 2, 4, [1, 1, 1, 1, 2, 2, 2, 2], 4⟩) ∧
    ((∃ buf, SaveAsJPG cap_jpg 1 2 4 (Mem.ofList [1, 1, 1, 1, 2, 2, 2, 2]) true
        = some ⟨cap_jpg, 1, 2, 4, buf, 1 * 4⟩ ∧
      ∀ i j : Int, 0 ≤ i → i < 2 → 0 ≤ j → j < 1 →
        ∃ px, pixel (load (Mem.ofList [1, 1, 1, 1, 2, 2, 2, 2])) (4 * (2 - 1 - i) + 4 * j)
            = some px ∧
          pixel (byteAt buf) (1 * 4 * i + 4 * j) = some (swapBR px)) ∧
    (∃ buf, SaveAsJPG cap_jpg 1 2 4 (Mem.ofList [1, 1, 1, 1, 2, 2, 2, 2]) false
        = some ⟨cap_jpg, 1, 2, 4, buf, 1 * 4⟩ ∧
      ∀ i j : Int, 0 ≤ i → i < 2 → 0 ≤ j → j < 1 →
        ∃ px, pixel (load (Mem.ofList [1, 1, 1, 1, 2, 2, 2, 2])) (4 * i + 4 * j) = some px ∧
          pixel (byteAt buf) (1 * 4 * i + 4 * j) = some (swapBR px))) :=
  ⟨⟨by decide, by decide⟩,
    C2_row_order cap_jpg 1 2 4 (Mem.ofList [1, 1, 1, 1, 2, 2, 2, 2]) (by decide) (by decide)
      (by decide) (by decide) (by decide) (by decide) (by decide)⟩

/-- C3 (as stated, refuted): with `w = 1`, `h = 3`, `src_stride = 2^30 > 4 * w`
and `flip_y = true`, row 0 starts at the wrapped product `2^30 * 2 = -2^31`,
so the byte read at offset `-2147483646` lies in no row. -/
theorem C3_counterexample_offset_overflow :
    (4 : Int) * 1 < 1073741824 ∧
    ¬ ∀ a ∈ SaveAsJPG_accesses 1 3 1073741824 true,
        ∃ r : Int, 0 ≤ r ∧ r < 3 ∧ 1073741824 * r ≤ a.read ∧ a.read < 1073741824 * r + 4 * 1 := by
  refine ⟨by decide, ?_⟩
  intro hall
  have hmem : (⟨-2147483646, 0⟩ : Access) ∈ SaveAsJPG_accesses 1 3 1073741824 true := by decide
  obtain ⟨r, hr0, _, hr1, _⟩ := hall _ hmem
  simp only at hr1
  omega

/-- C3 (amended): when `src_stride` is an `int` larger than `4 * w` and neither
`w * h * 4` nor `src_stride * (h - 1)` overflows `int`, every byte read lies in
the first `4 * w` bytes of a row `r` in `[0, h)`, in no row's padding, below
`src_stride * h`, and every byte written lies in `[0, w * h * 4)`. -/
theorem C3_stride_safety (w h s : Int) (flip_y : Bool) (hw : 0 ≤ w) (hh : 0 ≤ h)
    (hs : 4 * w < s) (hs31 : s < 2147483648) (hwh : w * h * 4 < 2147483648)
    (hsh : s * (h - 1) < 2147483648) :
    ∀ a ∈ SaveAsJPG_accesses w h s flip_y,
      (∃ r : Int, 0 ≤ r ∧ r < h ∧ s * r ≤ a.read ∧ a.read < s * r + 4 * w) ∧
      (∀ r : Int, ¬ (s * r + 4 * w ≤ a.read ∧ a.read < s * (r + 1))) ∧
      (0 ≤ a.read ∧ a.read < s * h) ∧
      (0 ≤ a.write ∧ a.write < w * h * 4) := by
  intro a ha
  rw [mem_SaveAsJPG_accesses] at ha
  obtain ⟨i, j, hi, hj, hmem⟩ := ha
  have hi2 : (i : Int) < h := by omega
  have hj2 : (j : Int) < w := by omega
  obtain ⟨o1, o2⟩ := offsets_in_range w h s flip_y hw (by omega) hs31 hwh hsh
    (i : Int) (j : Int) (by omega) hi2 (by omega) hj2
  rw [o1, o2, mem_pixelBody_iff] at hmem
  obtain ⟨k, hk, rfl⟩ := hmem
  obtain ⟨hr0, hr1⟩ := srcRow_range h flip_y i (by omega) hi2
  have hs0 : 0 ≤ s := by omega
  have hm : swz k < 4 := by
    unfold swz; split <;> omega
  have hsr0 : 0 ≤ s * srcRow h flip_y i := mul_nonneg hs0 hr0
  have hsr : s * srcRow h flip_y i + s ≤ s * h := by
    have := mul_le_mul_of_nonneg_left (show srcRow h flip_y i + 1 ≤ h by omega) hs0
    linarith
  have hwi0 : 0 ≤ w * i := mul_nonneg hw (by omega)
  have hwi : w * i + w ≤ w * h := by
    have := mul_le_mul_of_nonneg_left (show (i : Int) + 1 ≤ h by omega) hw
    linarith
  have ew : w * 4 * i = 4 * (w * i) := by ring
  have ewh : w * h * 4 = 4 * (w * h) := by ring
  simp only [ew, ewh]
  refine ⟨⟨srcRow h flip_y i, hr0, hr1, by omega, by omega⟩, ?_, ⟨by omega, by omega⟩,
    ⟨by omega, by omega⟩⟩
  rintro r ⟨hp1, hp2⟩
  rcases lt_trichotomy r (srcRow h flip_y i) with hlt | heq | hgt
  · have := mul_le_mul_of_nonneg_left (show r + 1 ≤ srcRow h flip_y i by omega) hs0
    omega
  · subst heq
    omega
  · have := mul_le_mul_of_nonneg_left (show srcRow h flip_y i + 1 ≤ r by omega) hs0
    have e1 : s * (srcRow h flip_y i + 1) = s * srcRow h flip_y i + s := by ring
    omega

/-- Witness of C3: a 2x2 image whose rows are padded to 12 bytes, `flip_y = true`;
the first assignment of output pixel `(0, 1)` reads offset 18 of source row 1
and writes offset 4. -/
theorem C3_stride_safety_witness :
    (⟨18, 4⟩ : Access) ∈ SaveAsJPG_accesses 2 2 12 true ∧
    ((∃ r : Int, 0 ≤ r ∧ r < 2 ∧ 12 * r ≤ (⟨18, 4⟩ : Access).read ∧
        (⟨18, 4⟩ : Access).read < 12 * r + 4 * 2) ∧
      (∀ r : Int, ¬ (12 * r + 4 * 2 ≤ (⟨18, 4⟩ : Access).read ∧
        (⟨18, 4⟩ : Access).read < 12 * (r + 1))) ∧
      (0 ≤ (⟨18, 4⟩ : Access).read ∧ (⟨18, 4⟩ : Access).read < 12 * 2) ∧
      (0 ≤ (⟨18, 4⟩ : Access).write ∧ (⟨18, 4⟩ : Access).write < 2 * 2 * 4)) :=
  ⟨by decide,
    C3_stride_safety 2 2 12 true (by decide) (by decide) (by decide) (by decide) (by decide)
      (by decide) ⟨18, 4⟩ (by decide)⟩

/-! ## Facts about the readback -/

theorem wrapInt_lt (x : Int) : wrapInt x < 2147483648 := by
  unfold wrapInt; omega

theorem pollLoop_done (gpu : Gpu) : ∀ (k fuel n : Nat), k < fuel →
    (∀ m, m < k → gpu.GetData (n + m) = S_FALSE) → gpu.GetData (n + k) ≠ S_FALSE →
    pollLoop gpu fuel n =
      (List.replicate k (Event.GetData S_FALSE) ++ [Event.GetData (gpu.GetData (n + k))], true)
  | 0, fuel, n, hk, _, hdone => by
    obtain ⟨f, rfl⟩ : ∃ f, fuel = f + 1 := ⟨fuel - 1, by omega⟩
    rw [Nat.add_zero] at hdone
    simp [pollLoop, hdone]
  | k + 1, fuel, n, hk, hpend, hdone => by
    obtain ⟨f, rfl⟩ : ∃ f, fuel = f + 1 := ⟨fuel - 1, by omega⟩
    have h0 : gpu.GetData n = S_FALSE := by simpa using hpend 0 (by omega)
    have ih := pollLoop_done gpu k f (n + 1) (by omega)
      (fun m hm => by
        have := hpend (m + 1) (by omega)
        rwa [show n + (m + 1) = n + 1 + m by omega] at this)
      (by rwa [show n + (k + 1) = n + 1 + k by omega] at hdone)
    simp only [pollLoop, h0, if_true, ih, List.replicate_succ, List.cons_append]
    rw [show n + 1 + k = n + (k + 1) by omega]

theorem pollLoop_shape (gpu : Gpu) : ∀ (fuel n : Nat),
    pollLoop gpu fuel n = (List.replicate fuel (Event.GetData S_FALSE), false) ∨
    ∃ k, k < fuel ∧ gpu.GetData (n + k) ≠ S_FALSE ∧
      pollLoop gpu fuel n =
        (List.replicate k (Event.GetData S_FALSE) ++ [Event.GetData (gpu.GetData (n + k))], true)
  | 0, n => by left; rfl
  | fuel + 1, n => by
    by_cases h0 : gpu.GetData n = S_FALSE
    · rcases pollLoop_shape gpu fuel (n + 1) with h | ⟨k, hk, hdone, h⟩
      · left
        simp [pollLoop, h0, h, List.replicate_succ]
      · right
        refine ⟨k + 1, by omega, ?_, ?_⟩
        · rwa [show n + (k + 1) = n + 1 + k by omega]
        · simp only [pollLoop, h0, if_true, h, List.replicate_succ, List.cons_append]
          rw [show n + 1 + k = n + (k + 1) by omega]
    · right
      exact ⟨0, by omega, by simpa using h0, by simp [pollLoop, h0]⟩

theorem callbackStrides_append (a b : List Event) :
    callbackStrides (a ++ b) = callbackStrides a ++ callbackStrides b := by
  induction a with
  | nil => rfl
  | cons e t ih => cases e <;> simp [callbackStrides, ih]

theorem unmapCount_append (a b : List Event) :
    unmapCount (a ++ b) = unmapCount a + unmapCount b := by
  induction a with
  | nil => simp [unmapCount]
  | cons e t ih =>
    cases e <;> simp [unmapCount, ih]
    omega

theorem encoderCalls_append (a b : List Event) :
    encoderCalls (a ++ b) = encoderCalls a ++ encoderCalls b := by
  induction a with
  | nil => rfl
  | cons e t ih => cases e <;> simp [encoderCalls, ih]

theorem callbackStrides_polls (hr : HRESULT) : ∀ k : Nat,
    callbackStrides (List.replicate k (Event.GetData hr)) = []
  | 0 => rfl
  | k + 1 => by simp [List.replicate_succ, callbackStrides, callbackStrides_polls hr k]

theorem unmapCount_polls (hr : HRESULT) : ∀ k : Nat,
    unmapCount (List.replicate k (Event.GetData hr)) = 0
  | 0 => rfl
  | k + 1 => by simp [List.replicate_succ, unmapCount, unmapCount_polls hr k]

theorem encoderCalls_polls (hr : HRESULT) : ∀ k : Nat,
    encoderCalls (List.replicate k (Event.GetData hr)) = []
  | 0 => rfl
  | k + 1 => by simp [List.replicate_succ, encoderCalls, encoderCalls_polls hr k]

theorem encoderCalls_setup (gpu : Gpu) (tex : Nat) (width height : Int) :
    encoderCalls (ReadTexture_setup gpu tex width height) = [] := rfl

theorem callbackStrides_setup (gpu : Gpu) (tex : Nat) (width height : Int) :
    callbackStrides (ReadTexture_setup gpu tex width height) = [] := rfl

theorem unmapCount_setup (gpu : Gpu) (tex : Nat) (width height : Int) :
    unmapCount (ReadTexture_setup gpu tex width height) = 0 := rfl

/-- Trace and result of `ReadTexture` once the poll loop has been left. -/
theorem ReadTexture_of_polls (gpu : Gpu) (fuel tex : Nat) (width height : Int)
    (cb : Mem → Int → Run Unit) (polls : List Event)
    (hp : pollLoop gpu fuel 0 = (polls, true)) :
    (SUCCEEDED gpu.Map = false →
      ReadTexture gpu fuel tex width height cb =
        ⟨ReadTexture_setup gpu tex width height ++ polls ++ [Event.Map gpu.Map],
         Outcome.returned false⟩) ∧
    (SUCCEEDED gpu.Map = true → SUCCEEDED gpu.CreateTexture2D = true →
      (cb gpu.mapped.pData (wrapInt gpu.mapped.RowPitch)).result = Outcome.returned () →
      ReadTexture gpu fuel tex width height cb =
        ⟨ReadTexture_setup gpu tex width height ++ polls
          ++ [Event.Map gpu.Map, Event.callback gpu.mapped.pData (wrapInt gpu.mapped.RowPitch)]
          ++ (cb gpu.mapped.pData (wrapInt gpu.mapped.RowPitch)).trace ++ [Event.Unmap],
         Outcome.returned true⟩) ∧
    (SUCCEEDED gpu.Map = true → SUCCEEDED gpu.CreateTexture2D = false →
      ReadTexture gpu fuel tex width height cb =
        ⟨ReadTexture_setup gpu tex width height ++ polls ++ [Event.Map gpu.Map],
         Outcome.aborted⟩) := by
  refine ⟨?_, ?_, ?_⟩
  · intro hm
    simp [ReadTexture, hp, hm]
  · intro hm hst hcb
    simp [ReadTexture, hp, hm, hst, hcb]
  · intro hm hst
    simp [ReadTexture, hp, hm, hst]

/-! ## Claims about the readback and the frame callback -/

/-- C4 (as stated, refuted): for the 1x2 frame whose row 0 is filled with 1 and
row 1 with 2, the callback hands the encoder the rows in source order, while the
conversion with `flip_y = true` gives the reversed order. -/
theorem C4_counterexample_callback_flip :
    encoderCalls (ScreenCapture_callback (gpuOk (Mem.ofList [1, 1, 1, 1, 2, 2, 2, 2]) 4) 1
        cap_jpg 0 1 2).trace
      = [⟨cap_jpg, 1, 2, 4, [1, 1, 1, 1, 2, 2, 2, 2], 4⟩] ∧
    SaveAsJPG cap_jpg 1 2 4 (Mem.ofList [1, 1, 1, 1, 2, 2, 2, 2]) true
      = some ⟨cap_jpg, 1, 2, 4, [2, 2, 2, 2, 1, 1, 1, 1], 4⟩ ∧
    encoderCalls (ScreenCapture_callback (gpuOk (Mem.ofList [1, 1, 1, 1, 2, 2, 2, 2]) 4) 1
        cap_jpg 0 1 2).trace
      ≠ (SaveAsJPG cap_jpg 1 2 4 (Mem.ofList [1, 1, 1, 1, 2, 2, 2, 2]) true).toList := by
  refine ⟨by decide, by decide, by decide⟩

/-- C4 (amended): the callback converts with `flip_y = false`. For a frame whose
readback succeeds (the staging texture was created, the poll loop is left and
`Map` succeeds) and whose sizes do not overflow `int`, the single buffer passed
to the encoder is `SaveAsJPG` of the mapped pixels with `flip_y = false`:
encoder row `i` is the exchanged source row `i`. -/
theorem C4_callback_no_flip (gpu : Gpu) (fuel : Nat) (path : String) (surface : Nat)
    (w h : Int) (k : Nat) (hk : k < fuel)
    (hpend : ∀ m, m < k → gpu.GetData m = S_FALSE) (hdone : gpu.GetData k ≠ S_FALSE)
    (hstaging : SUCCEEDED gpu.CreateTexture2D = true)
    (hmap : SUCCEEDED gpu.Map = true) (hw : 0 ≤ w) (hh : 0 ≤ h)
    (hs : 4 * w ≤ wrapInt gpu.mapped.RowPitch) (hwh : w * h * 4 < 2147483648)
    (hsh : wrapInt gpu.mapped.RowPitch * (h - 1) < 2147483648)
    (hlen : wrapInt gpu.mapped.RowPitch * h ≤ gpu.mapped.pData.size) :
    ∃ buf,
      encoderCalls (ScreenCapture_callback gpu fuel path surface w h).trace
        = [⟨path, w, h, 4, buf, w * 4⟩] ∧
      SaveAsJPG path w h (wrapInt gpu.mapped.RowPitch) gpu.mapped.pData false
        = some ⟨path, w, h, 4, buf, w * 4⟩ ∧
      ∀ i j : Int, 0 ≤ i → i < h → 0 ≤ j → j < w →
        ∃ px, pixel (load gpu.mapped.pData) (wrapInt gpu.mapped.RowPitch * i + 4 * j) = some px ∧
          pixel (byteAt buf) (w * 4 * i + 4 * j) = some (swapBR px) := by
  obtain ⟨buf, hcall, hrows⟩ := SaveAsJPG_rows path w h (wrapInt gpu.mapped.RowPitch)
    gpu.mapped.pData false hw hh hs (wrapInt_lt _) hwh hsh hlen
  refine ⟨buf, ?_, hcall, by simpa [srcRow] using hrows⟩
  have hp := pollLoop_done gpu k fuel 0 hk (by simpa using hpend) (by simpa using hdone)
  have hcb : ScreenCapture_onPixels path w h gpu.mapped.pData (wrapInt gpu.mapped.RowPitch)
      = ⟨[Event.stbi_write_jpg ⟨path, w, h, 4, buf, w * 4⟩], Outcome.returned ()⟩ := by
    simp [ScreenCapture_onPixels, SaveAsJPG_default_flip_y, hcall]
  have hrt := (ReadTexture_of_polls gpu fuel surface w h (ScreenCapture_onPixels path w h) _ hp).2.1
    hmap hstaging (by rw [hcb])
  simp only [ScreenCapture_callback, hrt, hcb]
  simp only [encoderCalls_append, encoderCalls_polls, encoderCalls_setup]
  rfl

/-- Witness of C4: a 1x2 frame on a device where every call succeeds. -/
theorem C4_callback_no_flip_witness :
    ∃ buf,
      encoderCalls (ScreenCapture_callback (gpuOk (Mem.ofList [1, 1, 1, 1, 2, 2, 2, 2]) 4) 1
          cap_jpg 0 1 2).trace = [⟨cap_jpg, 1, 2, 4, buf, 1 * 4⟩] ∧
      SaveAsJPG cap_jpg 1 2 (wrapInt (gpuOk (Mem.ofList [1, 1, 1, 1, 2, 2, 2, 2]) 4).mapped.RowPitch)
          (gpuOk (Mem.ofList [1, 1, 1, 1, 2, 2, 2, 2]) 4).mapped.pData false
        = some ⟨cap_jpg, 1, 2, 4, buf, 1 * 4⟩ ∧
      ∀ i j : Int, 0 ≤ i → i < 2 → 0 ≤ j → j < 1 →
        ∃ px, pixel (load (gpuOk (Mem.ofList [1, 1, 1, 1, 2, 2, 2, 2]) 4).mapped.pData)
            (wrapInt (gpuOk (Mem.ofList [1, 1, 1, 1, 2, 2, 2, 2]) 4).mapped.RowPitch * i + 4 * j)
            = some px ∧
          pixel (byteAt buf) (1 * 4 * i + 4 * j) = some (swapBR px) :=
  C4_callback_no_flip (gpuOk (Mem.ofList [1, 1, 1, 1, 2, 2, 2, 2]) 4) 1 cap_jpg 0 1 2 0
    (by decide) (by intro m hm; omega) (by decide) (by decide) (by decide) (by decide)
    (by decide) (by decide) (by decide) (by decide) (by decide)

theorem ReadTexture_unfinished (gpu : Gpu) (fuel tex : Nat) (width height : Int)
    (cb : Mem → Int → Run Unit) (polls : List Event)
    (hp : pollLoop gpu fuel 0 = (polls, false)) :
    ReadTexture gpu fuel tex width height cb =
      ⟨ReadTexture_setup gpu tex width height ++ polls, Outcome.unfinished⟩ := by
  simp [ReadTexture, hp]

theorem ReadTexture_trace_split (gpu : Gpu) (fuel tex : Nat) (width height : Int)
    (cb : Mem → Int → Run Unit) (polls : List Event)
    (hp : pollLoop gpu fuel 0 = (polls, true)) :
    ∃ rest, (ReadTexture gpu fuel tex width height cb).trace =
      (ReadTexture_setup gpu tex width height ++ polls)
        ++ Event.Map gpu.Map :: rest ∧
      (rest = [] ∨ ∃ tail,
        rest = Event.callback gpu.mapped.pData (wrapInt gpu.mapped.RowPitch) :: tail) := by
  unfold ReadTexture
  rw [hp]
  simp only []
  split_ifs with hm hst
  · split
    · exact ⟨Event.callback gpu.mapped.pData (wrapInt gpu.mapped.RowPitch)
        :: ((cb gpu.mapped.pData (wrapInt gpu.mapped.RowPitch)).trace ++ [Event.Unmap]),
        by simp only [List.append_assoc, List.cons_append, List.nil_append],
        Or.inr ⟨_, rfl⟩⟩
    · exact ⟨Event.callback gpu.mapped.pData (wrapInt gpu.mapped.RowPitch)
        :: (cb gpu.mapped.pData (wrapInt gpu.mapped.RowPitch)).trace,
        by simp only [List.append_assoc, List.cons_append, List.nil_append],
        Or.inr ⟨_, rfl⟩⟩
    · exact ⟨Event.callback gpu.mapped.pData (wrapInt gpu.mapped.RowPitch)
        :: (cb gpu.mapped.pData (wrapInt gpu.mapped.RowPitch)).trace,
        by simp only [List.append_assoc, List.cons_append, List.nil_append],
        Or.inr ⟨_, rfl⟩⟩
  · exact ⟨[], rfl, Or.inl rfl⟩
  · exact ⟨[], rfl, Or.inl rfl⟩

/-- A returned result of `ReadTexture` is `SUCCEEDED(Map)`; it is true only when
the staging texture exists and the callback returned. -/
theorem ReadTexture_result_cases (gpu : Gpu) (fuel tex : Nat) (width height : Int)
    (cb : Mem → Int → Run Unit) (b : Bool)
    (hret : (ReadTexture gpu fuel tex width height cb).result = Outcome.returned b) :
    b = SUCCEEDED gpu.Map ∧
    (b = true → SUCCEEDED gpu.CreateTexture2D = true ∧
      (cb gpu.mapped.pData (wrapInt gpu.mapped.RowPitch)).result = Outcome.returned ()) := by
  unfold ReadTexture at hret
  rcases hpl : pollLoop gpu fuel 0 with ⟨polls, left⟩
  rw [hpl] at hret
  cases left
  · simp at hret
  · simp only [] at hret
    split_ifs at hret with hm hst
    · cases hcb : (cb gpu.mapped.pData (wrapInt gpu.mapped.RowPitch)).result with
      | returned u =>
        rw [hcb] at hret
        simp only [Outcome.returned.injEq] at hret
        exact ⟨by rw [hm, ← hret], fun _ => ⟨hst, rfl⟩⟩
      | unfinished => rw [hcb] at hret; simp at hret
      | aborted => rw [hcb] at hret; simp at hret
    · simp only [Outcome.returned.injEq] at hret
      refine ⟨by rw [← hret]; simpa using hm, ?_⟩
      intro hb; rw [hb] at hret; cases hret

/-- C6 (as stated, refuted): on a device whose query creation fails while the
staging texture is created and mapped, `ReadTexture` returns true and invokes
the callback. On a device whose staging texture creation fails while `Map`
reports success, `ReadTexture` does not return false: it is left at
`staging->GetDesc` on the null pointer, before the callback. -/
theorem C6_counterexample_creation_unchecked :
    (SUCCEEDED gpuQueryFails.CreateQuery = false ∧
      (ReadTexture gpuQueryFails 1 0 1 1 idleCallback).result = Outcome.returned true ∧
      callbackStrides (ReadTexture gpuQueryFails 1 0 1 1 idleCallback).trace = [4]) ∧
    (SUCCEEDED gpuStagingFails.CreateTexture2D = false ∧
      (ReadTexture gpuStagingFails 1 0 1 1 idleCallback).result = Outcome.aborted ∧
      (ReadTexture gpuStagingFails 1 0 1 1 idleCallback).result ≠ Outcome.returned false ∧
      callbackStrides (ReadTexture gpuStagingFails 1 0 1 1 idleCallback).trace = []) := by
  refine ⟨⟨by decide, by decide, by decide⟩, by decide, by decide, by decide, by decide⟩

/-- C6 (amended): the result of creating the query is not tested. Once the poll
loop is left: if the staging texture creation fails or `Map` fails, the
callback is not invoked, nothing is unmapped and `ReadTexture` does not return
true; it returns false exactly when `Map` fails; it returns true when the
staging texture exists, `Map` succeeds and the callback returns; and whenever
it returns true the callback was invoked exactly once, with the mapped pointer
and row pitch, followed by exactly one `Unmap`. -/
theorem C6_readback_reporting (gpu : Gpu) (fuel tex : Nat) (width height : Int)
    (cb : Mem → Int → Run Unit) (k : Nat) (hk : k < fuel)
    (hpend : ∀ m, m < k → gpu.GetData m = S_FALSE) (hdone : gpu.GetData k ≠ S_FALSE) :
    (SUCCEEDED gpu.Map = false →
      (ReadTexture gpu fuel tex width height cb).result = Outcome.returned false ∧
      callbackStrides (ReadTexture gpu fuel tex width height cb).trace = [] ∧
      unmapCount (ReadTexture gpu fuel tex width height cb).trace = 0) ∧
    (SUCCEEDED gpu.CreateTexture2D = false →
      (ReadTexture gpu fuel tex width height cb).result ≠ Outcome.returned true ∧
      callbackStrides (ReadTexture gpu fuel tex width height cb).trace = [] ∧
      unmapCount (ReadTexture gpu fuel tex width height cb).trace = 0) ∧
    ((ReadTexture gpu fuel tex width height cb).result = Outcome.returned false ↔
      SUCCEEDED gpu.Map = false) ∧
    (SUCCEEDED gpu.CreateTexture2D = true → SUCCEEDED gpu.Map = true →
      (cb gpu.mapped.pData (wrapInt gpu.mapped.RowPitch)).result = Outcome.returned () →
      (ReadTexture gpu fuel tex width height cb).result = Outcome.returned true) ∧
    ((ReadTexture gpu fuel tex width height cb).result = Outcome.returned true →
      SUCCEEDED gpu.CreateTexture2D = true ∧ SUCCEEDED gpu.Map = true ∧
      ∃ pre, (ReadTexture gpu fuel tex width height cb).trace =
          pre ++ [Event.callback gpu.mapped.pData (wrapInt gpu.mapped.RowPitch)]
            ++ (cb gpu.mapped.pData (wrapInt gpu.mapped.RowPitch)).trace ++ [Event.Unmap] ∧
        callbackStrides pre = [] ∧ unmapCount pre = 0) := by
  have hp := pollLoop_done gpu k fuel 0 hk (by simpa using hpend) (by simpa using hdone)
  obtain ⟨hfail, hok, hnull⟩ := ReadTexture_of_polls gpu fuel tex width height cb _ hp
  have hnocb : callbackStrides (ReadTexture_setup gpu tex width height
      ++ (List.replicate k (Event.GetData S_FALSE) ++ [Event.GetData (gpu.GetData (0 + k))])
      ++ [Event.Map gpu.Map]) = [] := by
    simp only [callbackStrides_append, callbackStrides_polls, callbackStrides_setup]
    rfl
  have hnounmap : unmapCount (ReadTexture_setup gpu tex width height
      ++ (List.replicate k (Event.GetData S_FALSE) ++ [Event.GetData (gpu.GetData (0 + k))])
      ++ [Event.Map gpu.Map]) = 0 := by
    simp only [unmapCount_append, unmapCount_polls, unmapCount_setup]
    rfl
  have hfalse : SUCCEEDED gpu.Map = false →
      (ReadTexture gpu fuel tex width height cb).result = Outcome.returned false ∧
      callbackStrides (ReadTexture gpu fuel tex width height cb).trace = [] ∧
      unmapCount (ReadTexture gpu fuel tex width height cb).trace = 0 := by
    intro hm
    rw [hfail hm]
    exact ⟨rfl, hnocb, hnounmap⟩
  refine ⟨hfalse, ?_, ?_, ?_, ?_⟩
  · intro hst
    cases hm : SUCCEEDED gpu.Map with
    | false =>
      obtain ⟨hr, hc, hu⟩ := hfalse hm
      refine ⟨?_, hc, hu⟩
      rw [hr]; intro hcontra; cases hcontra
    | true =>
      rw [hnull hm hst]
      refine ⟨?_, hnocb, hnounmap⟩
      intro hcontra; cases hcontra
  · constructor
    · intro hret
      have := (ReadTexture_result_cases gpu fuel tex width height cb false hret).1
      exact this.symm
    · intro hm
      exact (hfalse hm).1
  · intro hst hm hcb
    rw [hok hm hst hcb]
  · intro hret
    obtain ⟨hm, hrest⟩ := ReadTexture_result_cases gpu fuel tex width height cb true hret
    obtain ⟨hst, hcb⟩ := hrest rfl
    rw [hok hm.symm hst hcb]
    refine ⟨hst, hm.symm, ReadTexture_setup gpu tex width height
      ++ (List.replicate k (Event.GetData S_FALSE) ++ [Event.GetData (gpu.GetData (0 + k))])
      ++ [Event.Map gpu.Map], ?_, hnocb, hnounmap⟩
    simp only [List.append_assoc, List.cons_append, List.nil_append]

/-- Witness of C6: on a device whose copy completes after two pending polls and
whose `Map` fails, `ReadTexture` returns false without callback or `Unmap`; on a
device whose staging texture creation fails it does not return true and the
callback is not invoked; on a device where every call succeeds it returns
true. -/
theorem C6_readback_reporting_witness :
    ((ReadTexture gpuMapFails 3 0 1 1 idleCallback).result = Outcome.returned false ∧
      callbackStrides (ReadTexture gpuMapFails 3 0 1 1 idleCallback).trace = [] ∧
      unmapCount (ReadTexture gpuMapFails 3 0 1 1 idleCallback).trace = 0) ∧
    ((ReadTexture gpuStagingFails 1 0 1 1 idleCallback).result ≠ Outcome.returned true ∧
      callbackStrides (ReadTexture gpuStagingFails 1 0 1 1 idleCallback).trace = [] ∧
      unmapCount (ReadTexture gpuStagingFails 1 0 1 1 idleCallback).trace = 0) ∧
    (ReadTexture (gpuOk (Mem.ofList [10, 20, 30, 40]) 4) 1 0 1 1 idleCallback).result
      = Outcome.returned true :=
  ⟨(C6_readback_reporting gpuMapFails 3 0 1 1 idleCallback 2 (by decide)
      (by intro m hm; interval_cases m <;> decide) (by decide)).1 (by decide),
   (C6_readback_reporting gpuStagingFails 1 0 1 1 idleCallback 0
      (by decide) (by intro m hm; omega) (by decide)).2.1 (by decide),
   (C6_readback_reporting (gpuOk (Mem.ofList [10, 20, 30, 40]) 4) 1 0 1 1 idleCallback 0
      (by decide) (by intro m hm; omega) (by decide)).2.2.2.1 (by decide) (by decide) rfl⟩

theorem notifyCount_append (a b : List Event) :
    notifyCount (a ++ b) = notifyCount a + notifyCount b := by
  induction a with
  | nil => simp [notifyCount]
  | cons e t ih =>
    cases e <;> simp [notifyCount, ih]
    omega

theorem pollResults_append (a b : List Event) :
    pollResults (a ++ b) = pollResults a ++ pollResults b := by
  induction a with
  | nil => rfl
  | cons e t ih => cases e <;> simp [pollResults, ih]

theorem pollResults_polls (hr : HRESULT) : ∀ k : Nat,
    pollResults (List.replicate k (Event.GetData hr)) = List.replicate k hr
  | 0 => rfl
  | k + 1 => by simp [List.replicate_succ, pollResults, pollResults_polls hr k]

theorem setup_polls_untouched (gpu : Gpu) (tex : Nat) (width height : Int) (k : Nat)
    (tail : List Event) (htail : ∀ e ∈ tail, e.touchesStaging = false) :
    ∀ e ∈ ReadTexture_setup gpu tex width height
        ++ (List.replicate k (Event.GetData S_FALSE) ++ tail),
      e.touchesStaging = false := by
  intro e he
  rcases List.mem_append.mp he with h | h
  · simp only [ReadTexture_setup, List.mem_cons, List.mem_singleton, List.not_mem_nil,
      or_false] at h
    rcases h with rfl | rfl | rfl | rfl | rfl <;> rfl
  · rcases List.mem_append.mp h with h | h
    · rw [List.eq_of_mem_replicate h]; rfl
    · exact htail e h

/-- C9 (as stated, refuted): when the poll reports `S_FALSE` twice and then the
error `E_OUTOFMEMORY`, no poll ever reports completion, yet the staging buffer
is mapped and the callback is invoked. -/
theorem C9_counterexample_poll_error :
    pollResults (ReadTexture gpuPollError 3 0 1 1 idleCallback).trace
      = [S_FALSE, S_FALSE, E_OUTOFMEMORY] ∧
    S_OK ∉ pollResults (ReadTexture gpuPollError 3 0 1 1 idleCallback).trace ∧
    callbackStrides (ReadTexture gpuPollError 3 0 1 1 idleCallback).trace = [4] ∧
    (ReadTexture gpuPollError 3 0 1 1 idleCallback).result = Outcome.returned true := by
  refine ⟨by decide, by decide, by decide, by decide⟩

/-- C9 (amended): in every execution of `ReadTexture`, for every sequence of
poll results and every fuel, the trace is a part without `Map` or callback,
followed either by nothing or by `Map` and then, if at all, the callback. In
the second case the part before `Map` ends with a poll whose result is not
`S_FALSE` (completion or an error code) and every earlier poll gave `S_FALSE`.
So the staging buffer is never mapped or read before a poll, or while the last
poll result is `S_FALSE`. -/
theorem C9_fence_before_read (gpu : Gpu) (fuel tex : Nat) (width height : Int)
    (cb : Mem → Int → Run Unit) :
    ∃ pre post, (ReadTexture gpu fuel tex width height cb).trace = pre ++ post ∧
      (∀ e ∈ pre, e.touchesStaging = false) ∧
      (post = [] ∨
        ∃ k hr rest, hr ≠ S_FALSE ∧
          pollResults pre = List.replicate k S_FALSE ++ [hr] ∧
          pre = ReadTexture_setup gpu tex width height
            ++ List.replicate k (Event.GetData S_FALSE) ++ [Event.GetData hr] ∧
          post = Event.Map gpu.Map :: rest ∧
          (rest = [] ∨ ∃ tail,
            rest = Event.callback gpu.mapped.pData (wrapInt gpu.mapped.RowPitch) :: tail)) := by
  rcases pollLoop_shape gpu fuel 0 with hp | ⟨k, _, hdone, hp⟩
  · refine ⟨ReadTexture_setup gpu tex width height
      ++ (List.replicate fuel (Event.GetData S_FALSE) ++ []), [], ?_, ?_, Or.inl rfl⟩
    · rw [ReadTexture_unfinished gpu fuel tex width height cb _ hp]
      simp only [List.append_nil]
    · exact setup_polls_untouched gpu tex width height fuel [] (by simp)
  · obtain ⟨rest, hrest, hshape⟩ := ReadTexture_trace_split gpu fuel tex width height cb _ hp
    refine ⟨ReadTexture_setup gpu tex width height
      ++ (List.replicate k (Event.GetData S_FALSE) ++ [Event.GetData (gpu.GetData (0 + k))]),
      Event.Map gpu.Map :: rest, hrest, ?_, Or.inr ⟨k, gpu.GetData (0 + k), rest, hdone, ?_, ?_,
        rfl, hshape⟩⟩
    · apply setup_polls_untouched
      intro e he
      rw [List.mem_singleton.mp he]; rfl
    · rw [pollResults_append, pollResults_append, pollResults_polls]
      rfl
    · simp only [List.append_assoc]

theorem notifyCount_polls (hr : HRESULT) : ∀ k : Nat,
    notifyCount (List.replicate k (Event.GetData hr)) = 0
  | 0 => rfl
  | k + 1 => by simp [List.replicate_succ, notifyCount, notifyCount_polls hr k]

theorem notifyCount_pollLoop (gpu : Gpu) : ∀ fuel n : Nat,
    notifyCount (pollLoop gpu fuel n).1 = 0
  | 0, _ => rfl
  | fuel + 1, n => by
    unfold pollLoop
    split_ifs
    · simp [notifyCount, notifyCount_pollLoop gpu fuel (n + 1)]
    · rfl

theorem notifyCount_onPixels (path : String) (w h : Int) (data : Mem) (stride : Int) :
    notifyCount (ScreenCapture_onPixels path w h data stride).trace = 0 := by
  unfold ScreenCapture_onPixels
  split <;> rfl

/-- The readback of the frame callback never signals by itself. -/
theorem notifyCount_ReadTexture (gpu : Gpu) (fuel : Nat) (path : String) (surface : Nat)
    (w h : Int) :
    notifyCount (ReadTexture gpu fuel surface w h (ScreenCapture_onPixels path w h)).trace
      = 0 := by
  have hs : notifyCount (ReadTexture_setup gpu surface w h) = 0 := rfl
  have hpl := notifyCount_pollLoop gpu fuel 0
  have hcb := notifyCount_onPixels path w h gpu.mapped.pData (wrapInt gpu.mapped.RowPitch)
  unfold ReadTexture
  rcases hp : pollLoop gpu fuel 0 with ⟨polls, left⟩
  rw [hp] at hpl
  simp only [] at hpl
  cases left
  · simp only [notifyCount_append, hs, hpl]
  · simp only []
    split_ifs
    · split <;> simp only [notifyCount_append, hs, hpl, hcb] <;> rfl
    · simp only [notifyCount_append, hs, hpl]; rfl
    · simp only [notifyCount_append, hs, hpl]; rfl

/-- C10 (as stated, refuted): on a device whose `Map` fails, `ReadTexture`
returns false, nothing is encoded, and the callback still calls `notify_one`. -/
theorem C10_counterexample_signal_on_failure :
    (ReadTexture gpuMapFails 3 0 1 1 (ScreenCapture_onPixels cap_jpg 1 1)).result
      = Outcome.returned false ∧
    encoderCalls (ScreenCapture_callback gpuMapFails 3 cap_jpg 0 1 1).trace = [] ∧
    notifyCount (ScreenCapture_callback gpuMapFails 3 cap_jpg 0 1 1).trace = 1 := by
  refine ⟨by decide, by decide, by decide⟩

/-- C10 (amended): for every delivered frame whose `ReadTexture` returns, with
true or with false, the callback returns after calling `notify_one` exactly
once, after the readback. -/
theorem C10_callback_always_signals (gpu : Gpu) (fuel : Nat) (path : String) (surface : Nat)
    (w h : Int) (b : Bool)
    (hret : (ReadTexture gpu fuel surface w h (ScreenCapture_onPixels path w h)).result
      = Outcome.returned b) :
    (ScreenCapture_callback gpu fuel path surface w h).result = Outcome.returned () ∧
    (ScreenCapture_callback gpu fuel path surface w h).trace
      = (ReadTexture gpu fuel surface w h (ScreenCapture_onPixels path w h)).trace
        ++ [Event.notify_one] ∧
    notifyCount (ScreenCapture_callback gpu fuel path surface w h).trace = 1 := by
  have ht : (ScreenCapture_callback gpu fuel path surface w h).trace
      = (ReadTexture gpu fuel surface w h (ScreenCapture_onPixels path w h)).trace
        ++ [Event.notify_one] := by
    simp only [ScreenCapture_callback, hret]
  refine ⟨by simp only [ScreenCapture_callback, hret], ht, ?_⟩
  rw [ht, notifyCount_append, notifyCount_ReadTexture]
  rfl

/-- Witness of C10: a 2x2 frame on a device whose `Map` fails. -/
theorem C10_callback_always_signals_witness :
    (ReadTexture gpuMapFails 5 7 2 2 (ScreenCapture_onPixels cap_jpg 2 2)).result
      = Outcome.returned false ∧
    ((ScreenCapture_callback gpuMapFails 5 cap_jpg 7 2 2).result = Outcome.returned () ∧
    (ScreenCapture_callback gpuMapFails 5 cap_jpg 7 2 2).trace
      = (ReadTexture gpuMapFails 5 7 2 2 (ScreenCapture_onPixels cap_jpg 2 2)).trace
        ++ [Event.notify_one] ∧
    notifyCount (ScreenCapture_callback gpuMapFails 5 cap_jpg 7 2 2).trace = 1) :=
  ⟨by decide, C10_callback_always_signals gpuMapFails 5 cap_jpg 7 2 2 false (by decide)⟩

/-! ## Facts about the capture session -/

theorem stop_fst (g : GraphicsCapture) (wd : World) :
    (g.stop wd).1 = GraphicsCapture.new := rfl

theorem stop_new (wd : World) : GraphicsCapture.new.stop wd = (GraphicsCapture.new, wd) := rfl

theorem stop_stop (g : GraphicsCapture) (wd : World) :
    (g.stop wd).1.stop (g.stop wd).2 = g.stop wd := by
  rw [stop_fst, stop_new]
  exact Prod.ext (stop_fst g wd).symm rfl

theorem invocations_append (a b : List SessionEvent) :
    invocations (a ++ b) = invocations a ++ invocations b := by
  induction a with
  | nil => rfl
  | cons e t ih => cases e <;> simp [invocations, ih]

theorem World.release_invocations (wd : World) (m : Option Nat) (ev : Nat → SessionEvent)
    (hev : ∀ x, invocations [ev x] = []) :
    invocations (wd.release m ev).log = invocations wd.log := by
  cases m with
  | none => rfl
  | some x => simp [World.release, invocations_append, hev]

theorem stop_invocations (g : GraphicsCapture) (wd : World) :
    invocations (g.stop wd).2.log = invocations wd.log := by
  simp only [GraphicsCapture.stop]
  rw [World.release_invocations _ _ SessionEvent.releaseItem (fun _ => rfl),
    World.release_invocations _ _ SessionEvent.Close (fun _ => rfl),
    World.release_invocations _ _ SessionEvent.releaseSession (fun _ => rfl),
    World.release_invocations _ _ SessionEvent.revoke (fun _ => rfl)]

theorem World.release_log_some (wd : World) (x : Nat) (ev : Nat → SessionEvent) :
    (wd.release (some x) ev).log = wd.log ++ [ev x] := rfl

theorem World.release_log_sub (wd : World) (m : Option Nat) (ev : Nat → SessionEvent)
    (e : SessionEvent) (he : e ∈ wd.log) : e ∈ (wd.release m ev).log := by
  cases m with
  | none => exact he
  | some x => exact List.mem_append_left _ he

/-- The log of `stop` holds a release of every handle the session held. -/
theorem stop_log_releases (g : GraphicsCapture) (wd : World) :
    (∀ t, g.m_frame_arrived = some t → SessionEvent.revoke t ∈ (g.stop wd).2.log) ∧
    (∀ s, g.m_capture_session = some s → SessionEvent.releaseSession s ∈ (g.stop wd).2.log) ∧
    (∀ p, g.m_frame_pool = some p → SessionEvent.Close p ∈ (g.stop wd).2.log) ∧
    (∀ i, g.m_capture_item = some i → SessionEvent.releaseItem i ∈ (g.stop wd).2.log) := by
  refine ⟨?_, ?_, ?_, ?_⟩
  · intro t ht
    simp only [GraphicsCapture.stop, ht]
    apply World.release_log_sub; apply World.release_log_sub; apply World.release_log_sub
    rw [World.release_log_some]; simp
  · intro s hs
    simp only [GraphicsCapture.stop, hs]
    apply World.release_log_sub; apply World.release_log_sub
    rw [World.release_log_some]; simp
  · intro p hp
    simp only [GraphicsCapture.stop, hp]
    apply World.release_log_sub
    rw [World.release_log_some]; simp
  · intro i hi
    simp only [GraphicsCapture.stop, hi]
    rw [World.release_log_some]; simp

theorem startImpl_log_sub (g : GraphicsCapture) (wd : World) (ft : Bool) (cb : Nat)
    (cci : Option Nat) (e : SessionEvent) (he : e ∈ (g.stop wd).2.log) :
    e ∈ (g.startImpl wd ft cb cci).2.2.log := by
  cases cci with
  | none => exact he
  | some item => exact List.mem_append_left _ he

/-! ## Claims about the capture session -/

/-- C5 (as stated, refuted): a start on a fresh session whose target is not
resolved returns false but keeps the callback it was given, so the session is
not in the state `stop` leaves. -/
theorem C5_counterexample_callback_retained :
    resolveNone (Target.monitor 0) = none ∧
    (GraphicsCapture.start resolveNone GraphicsCapture.new ⟨0, []⟩ (Target.monitor 0) true 7).1
      = false ∧
    (GraphicsCapture.start resolveNone GraphicsCapture.new ⟨0, []⟩ (Target.monitor 0) true
      7).2.1.m_callback = some 7 ∧
    (GraphicsCapture.start resolveNone GraphicsCapture.new ⟨0, []⟩ (Target.monitor 0) true 7).2.1
      ≠ (GraphicsCapture.new.stop ⟨0, []⟩).1 := by
  refine ⟨by decide, by decide, by decide, by decide⟩

/-- C5 (amended): `start` returns true exactly when a capture item was resolved;
when none is resolved it returns false and leaves no capture item, no frame pool,
no capture session and no subscription, the compositor being as `stop` leaves
it, while the callback passed to `start` stays stored. -/
theorem C5_failed_start (resolve : Target → Option Nat) (g : GraphicsCapture) (wd : World)
    (target : Target) (free_threaded : Bool) (callback : Nat) :
    ((GraphicsCapture.start resolve g wd target free_threaded callback).1 = true ↔
      (resolve target).isSome = true) ∧
    (resolve target = none →
      (GraphicsCapture.start resolve g wd target free_threaded callback).1 = false ∧
      (GraphicsCapture.start resolve g wd target free_threaded callback).2.1
        = ⟨none, none, none, none, some callback⟩ ∧
      (GraphicsCapture.start resolve g wd target free_threaded callback).2.2
        = (g.stop wd).2) := by
  constructor
  · unfold GraphicsCapture.start GraphicsCapture.startImpl
    cases resolve target <;> simp
  · intro hres
    unfold GraphicsCapture.start GraphicsCapture.startImpl
    rw [hres]
    exact ⟨rfl, rfl, rfl⟩

/-- Witness of C5: an Active session restarted on a window that is not
resolved. -/
theorem C5_failed_start_witness :
    resolveMonitor (Target.window 5) = none ∧
    (GraphicsCapture.start resolveMonitor activeSession activeWorld (Target.window 5) false 8).1
      = false ∧
    (GraphicsCapture.start resolveMonitor activeSession activeWorld (Target.window 5) false 8).2.1
      = ⟨none, none, none, none, some 8⟩ ∧
    (GraphicsCapture.start resolveMonitor activeSession activeWorld (Target.window 5) false 8).2.2
      = (activeSession.stop activeWorld).2 :=
  ⟨rfl, (C5_failed_start resolveMonitor activeSession activeWorld (Target.window 5) false 8).2 rfl⟩

/-- C7: for every session state, `start` gives the same return value, session
state and compositor state as `stop` followed by `start`; after it only the new
callback is stored, and the subscription, capture session and frame pool held
before have been revoked, released and closed. -/
theorem C7_restart_safety (resolve : Target → Option Nat) (g : GraphicsCapture) (wd : World)
    (target : Target) (free_threaded : Bool) (callback : Nat) :
    GraphicsCapture.start resolve (g.stop wd).1 (g.stop wd).2 target free_threaded callback
      = GraphicsCapture.start resolve g wd target free_threaded callback ∧
    (GraphicsCapture.start resolve g wd target free_threaded callback).2.1.m_callback
      = some callback ∧
    (∀ t, g.m_frame_arrived = some t → SessionEvent.revoke t ∈
      (GraphicsCapture.start resolve g wd target free_threaded callback).2.2.log) ∧
    (∀ s, g.m_capture_session = some s → SessionEvent.releaseSession s ∈
      (GraphicsCapture.start resolve g wd target free_threaded callback).2.2.log) ∧
    (∀ p, g.m_frame_pool = some p → SessionEvent.Close p ∈
      (GraphicsCapture.start resolve g wd target free_threaded callback).2.2.log) := by
  obtain ⟨h1, h2, h3, _⟩ := stop_log_releases g wd
  refine ⟨?_, ?_, ?_, ?_, ?_⟩
  · unfold GraphicsCapture.start GraphicsCapture.startImpl
    rw [stop_stop]
  · unfold GraphicsCapture.start GraphicsCapture.startImpl
    cases resolve target <;> rfl
  · intro t ht
    exact startImpl_log_sub g wd _ _ _ _ (h1 t ht)
  · intro s hs
    exact startImpl_log_sub g wd _ _ _ _ (h2 s hs)
  · intro p hp
    exact startImpl_log_sub g wd _ _ _ _ (h3 p hp)

/-- C8: `stop` on a freshly constructed session changes neither the session nor
the compositor; for every state, `stop` after `stop` changes nothing more; after
`stop` every member is null; `stop` invokes no callback; and the session states
`stop` leaves unchanged are exactly the one with every member null. -/
theorem C8_stop_idempotent (g : GraphicsCapture) (wd : World) :
    GraphicsCapture.new.stop wd = (GraphicsCapture.new, wd) ∧
    (g.stop wd).1.stop (g.stop wd).2 = g.stop wd ∧
    (g.stop wd).1 = ⟨none, none, none, none, none⟩ ∧
    invocations (g.stop wd).2.log = invocations wd.log ∧
    ((g.stop wd).1 = g ↔ g = GraphicsCapture.new) :=
  ⟨stop_new wd, stop_stop g wd, stop_fst g wd, stop_invocations g wd,
    by rw [stop_fst]; exact eq_comm⟩

end ScreenCapture
